import Mathlib

/-!
Verification of the codex-teams scheduling core against its design
specification.

The Python sources under scripts/py are shallowly embedded here:

* pure helpers become Lean functions over `String` / `List`;
* the process table (`os.kill`), the filesystem (`Path.exists`) and the
  JSON decoder (`json.loads`) are external to the repository and are
  passed in as explicit oracle parameters;
* Python dictionaries that the code only reads through `.get` are
  modelled as `String → Option String` functions, and dictionaries that
  the code builds incrementally are modelled as association lists with
  the same update semantics (later assignment wins, insertion order is
  preserved).

Python `str` operations are modelled for the character ranges the
repository actually manipulates (ASCII key/value metadata, task ids,
markdown tables): `str.strip` and friends strip the ASCII whitespace
characters, `str.isdigit` tests ASCII digits, `str.isalnum` /
`str.lower` act on ASCII letters and digits.
-/

/-! ## Python string primitives -/

/-- ASCII whitespace, the characters Python `str.strip()` removes from
the data handled by this repository. -/
def pyIsSpaceChar (c : Char) : Bool :=
  c = ' ' || c = '\t' || c = '\n' || c = '\r' || c = '\x0b' || c = '\x0c'

/-- Python `str.strip()`. -/
def pyStrip (s : String) : String :=
  ⟨((s.data.dropWhile pyIsSpaceChar).reverse.dropWhile pyIsSpaceChar).reverse⟩

/-- Python `str.rstrip()`. -/
def pyRStrip (s : String) : String :=
  ⟨(s.data.reverse.dropWhile pyIsSpaceChar).reverse⟩

/-- Python `str.isdigit()` (ASCII digits; true only on a nonempty string). -/
def pyIsDigitStr (s : String) : Bool :=
  s ≠ "" && s.data.all Char.isDigit

/-- Value of `int(s)` for an all-digit string `s`. -/
def digitsToNat (s : String) : Nat :=
  s.data.foldl (fun a c => 10 * a + (c.toNat - Char.toNat '0')) 0

/-- Python truthiness of a string: nonempty. -/
def pyTruthy (s : String) : Bool := s ≠ ""

/-- Python `a or b` on strings: `a` when nonempty, else `b`. -/
def pyOr (a b : String) : String := if a = "" then b else a

/-- Worker loop for `pySplitComma`; `acc` holds the current field in
reverse. -/
def splitCommaAux : List Char → List Char → List String
  | [], acc => [⟨acc.reverse⟩]
  | c :: rest, acc =>
    if c = ',' then ⟨acc.reverse⟩ :: splitCommaAux rest []
    else splitCommaAux rest (c :: acc)

/-- Python `s.split(",")`: split at every comma, keeping empty fields;
the empty string yields one empty field. -/
def pySplitComma (s : String) : List String := splitCommaAux s.data []

/-! ## todo_parser.py: dependency readiness

`deps_ready` from scripts/py/todo_parser.py.  The task-status and
gate-status dictionaries are modelled as `String → Option String`; the
source reads them only via `d.get(key, "")`, embedded as
`(m key).getD ""`. -/

/-- `re.fullmatch(r"G\d+", dep)`: a `G` followed by one or more digits. -/
def isGateDep (s : String) : Bool :=
  match s.data with
  | c :: rest => c = 'G' && (rest ≠ [] && rest.all Char.isDigit)
  | [] => false

/-- `re.fullmatch(r"T\d+-\d+", dep)`: `T`, digits, `-`, digits.  The
digit class excludes `-`, so the regex match is equivalent to this
deterministic split at the first non-digit. -/
def isTaskDep (s : String) : Bool :=
  match s.data with
  | c :: rest =>
    c = 'T' &&
      (rest.takeWhile Char.isDigit ≠ [] &&
        match rest.dropWhile Char.isDigit with
        | '-' :: ds2 => ds2 ≠ [] && ds2.all Char.isDigit
        | _ => false)
  | [] => false

/-- The two dependency-token patterns are mutually exclusive (they fix
different leading characters). -/
theorem isTaskDep_of_isGateDep {s : String} (h : isGateDep s = true) :
    isTaskDep s = false := by
  unfold isGateDep at h
  unfold isTaskDep
  cases hs : s.data with
  | nil => rfl
  | cons c rest =>
    rw [hs] at h
    have hc : c = 'G' := by
      by_contra hcc
      simp [hcc] at h
    simp [hc]

/-- The `for dep_raw in raw.split(",")` loop of `deps_ready`, with the
early `return False` exits. -/
def depsLoop (ts gs : String → Option String) : List String → Bool
  | [] => true
  | depRaw :: rest =>
    let dep := pyStrip depRaw
    if dep = "" then depsLoop ts gs rest
    else if isGateDep dep then
      if (gs dep).getD "" ≠ "DONE" then false else depsLoop ts gs rest
    else if isTaskDep dep then
      if (ts dep).getD "" ≠ "DONE" then false else depsLoop ts gs rest
    else false

/-- `deps_ready(deps, task_status, gate_status)` from todo_parser.py.
`(deps or "").strip()` collapses to `pyStrip deps` because stripping the
empty string is the empty string. -/
def deps_ready (deps : String) (ts gs : String → Option String) : Bool :=
  let raw := pyStrip deps
  if raw = "" || raw = "-" then true
  else depsLoop ts gs (pySplitComma raw)

/-! ## C5 / C6 theorems -/

theorem getD_empty_eq_done (m : String → Option String) (k : String) :
    ((m k).getD "" = "DONE") ↔ m k = some "DONE" := by
  cases h : m k <;> simp

theorem depsLoop_eq_all (ts gs : String → Option String) (l : List String) :
    depsLoop ts gs l = true ↔
      ∀ tok ∈ l,
        pyStrip tok = "" ∨
        (isGateDep (pyStrip tok) = true ∧ gs (pyStrip tok) = some "DONE") ∨
        (isTaskDep (pyStrip tok) = true ∧ ts (pyStrip tok) = some "DONE") := by
  induction l with
  | nil => simp [depsLoop]
  | cons d rest ih =>
    rw [List.forall_mem_cons]
    unfold depsLoop
    by_cases h1 : pyStrip d = ""
    · simp [h1, ih]
    · by_cases h2 : isGateDep (pyStrip d) = true
      · have h3 := isTaskDep_of_isGateDep h2
        by_cases h4 : gs (pyStrip d) = some "DONE"
        · have h4' : (gs (pyStrip d)).getD "" = "DONE" :=
            (getD_empty_eq_done gs _).mpr h4
          simp [h1, h2, h3, h4, h4', ih]
        · have h4' : ¬ (gs (pyStrip d)).getD "" = "DONE" := by
            rw [getD_empty_eq_done]; exact h4
          simp [h1, h2, h3, h4, h4', ih]
      · by_cases h3 : isTaskDep (pyStrip d) = true
        · by_cases h4 : ts (pyStrip d) = some "DONE"
          · have h4' : (ts (pyStrip d)).getD "" = "DONE" :=
              (getD_empty_eq_done ts _).mpr h4
            simp [h1, h2, h3, h4, h4', ih]
          · have h4' : ¬ (ts (pyStrip d)).getD "" = "DONE" := by
              rw [getD_empty_eq_done]; exact h4
            simp [h1, h2, h3, h4, h4', ih]
        · simp [h1, h2, h3]

/-- C5: `deps_ready` is true exactly when the trimmed field is empty or
the sentinel `-`, or every comma token (whitespace-trimmed, empty tokens
skipped) is a gate id that maps to DONE in the gate map, or a task id
whose status is the literal DONE; a token matching neither pattern makes
the result false. -/
theorem deps_ready_characterization (deps : String) (ts gs : String → Option String) :
    deps_ready deps ts gs = true ↔
      (pyStrip deps = "" ∨ pyStrip deps = "-" ∨
        ∀ tok ∈ pySplitComma (pyStrip deps),
          pyStrip tok = "" ∨
          (isGateDep (pyStrip tok) = true ∧ gs (pyStrip tok) = some "DONE") ∨
          (isTaskDep (pyStrip tok) = true ∧ ts (pyStrip tok) = some "DONE")) := by
  unfold deps_ready
  by_cases h1 : pyStrip deps = ""
  · simp [h1]
  · by_cases h2 : pyStrip deps = "-"
    · simp [h2]
    · rw [if_neg (by simp [h1, h2])]
      simp only [h1, h2, false_or]
      exact depsLoop_eq_all ts gs _

/-- Witness for C5: the characterization applied at the sentinel. -/
theorem deps_ready_characterization_witness :
    deps_ready "-" (fun _ => none) (fun _ => none) = true :=
  (deps_ready_characterization "-" (fun _ => none) (fun _ => none)).mpr
    (Or.inr (Or.inl (by decide)))

/-- C6 counterexample: the spec's `"none"` sentinel is not recognized by
`deps_ready`; even with every task and gate DONE the result is false. -/
theorem deps_ready_none_counterexample :
    deps_ready "none" (fun _ => some "DONE") (fun _ => some "DONE") = false := by
  decide

/-- C6 (amended): the only no-dependency sentinels are the empty field
and `-`; a deps field of `"none"` matches neither the gate-id nor the
task-id pattern, so it fails the dependency check under every
task-status and gate-status mapping. -/
theorem deps_ready_none_is_false (ts gs : String → Option String) :
    deps_ready "none" ts gs = false := by
  rfl

/-! ## state_model.py: liveness check and worker classification

`os.kill(pid, 0)` is external to the repository; the outcome of
signalling a process is supplied as an oracle `kill : Nat → KillResult`.
`PermissionError` and `ProcessLookupError` are both subclasses of
`OSError`, which the source catches wholesale. -/

/-- Outcome of `os.kill(pid, 0)`: success, or an `OSError` — permission
denied (`EPERM`), no such process (`ESRCH`), or any other `OSError`. -/
inductive KillResult where
  | ok
  | permDenied
  | noSuchProcess
  | otherOSError
deriving DecidableEq, Repr

/-- `is_pid_alive(pid_value)` from state_model.py: false unless the
string is nonempty and all digits; otherwise true exactly when
`os.kill(pid, 0)` raises no `OSError`. -/
def is_pid_alive (kill : Nat → KillResult) (pidValue : String) : Bool :=
  if ¬ pyIsDigitStr pidValue then false
  else
    match kill (digitsToNat pidValue) with
    | KillResult.ok => true
    | _ => false

/-- Modelled from the spec: "a process id is alive only if it is a
positive integer and signaling it with a no-op signal succeeds
(permission-denied counts as alive; not-found does not)". -/
def pid_alive_spec (kill : Nat → KillResult) (pidValue : String) : Bool :=
  pyIsDigitStr pidValue && digitsToNat pidValue ≠ 0 &&
    match kill (digitsToNat pidValue) with
    | KillResult.ok => true
    | KillResult.permDenied => true
    | _ => false

/-- C7 counterexample: when the no-op signal fails with permission
denied, the code reports the pid as dead while the claim requires it to
be alive; and pid `0` (not a positive integer) is reported alive when
signalling the process group succeeds. -/
theorem is_pid_alive_counterexample :
    (is_pid_alive (fun _ => KillResult.permDenied) "5" = false ∧
      pid_alive_spec (fun _ => KillResult.permDenied) "5" = true) ∧
    (is_pid_alive (fun _ => KillResult.ok) "0" = true ∧
      pid_alive_spec (fun _ => KillResult.ok) "0" = false) := by
  constructor <;> constructor <;> decide

/-- C7 (amended): `is_pid_alive` returns true iff the string is a
nonempty all-digit literal (so zero is accepted) and the no-op signal
raises no `OSError` at all — permission denied and not-found are treated
alike, both yielding false. -/
theorem is_pid_alive_characterization (kill : Nat → KillResult) (pidValue : String) :
    is_pid_alive kill pidValue = true ↔
      (pyIsDigitStr pidValue = true ∧ kill (digitsToNat pidValue) = KillResult.ok) := by
  unfold is_pid_alive
  by_cases h : pyIsDigitStr pidValue
  · simp only [h, not_true_eq_false, if_neg, ite_false]
    cases hk : kill (digitsToNat pidValue) <;> simp [hk]
  · simp [h]

/-- Witness for C7's amended characterization at a live pid. -/
theorem is_pid_alive_characterization_witness :
    is_pid_alive (fun _ => KillResult.ok) "7" = true :=
  (is_pid_alive_characterization (fun _ => KillResult.ok) "7").mpr ⟨by decide, rfl⟩

/-! ## state_model.py: inventories and `classify_records`

Rows carry the fields that `load_pid_inventory` / `load_lock_inventory`
put into their dictionaries; every value is a string (missing metadata
keys default to `""`).  `Path(worktree).exists()` is the filesystem
oracle `pathExists`. -/

structure PidRow where
  key : String
  task_id : String
  owner : String
  scope : String
  pid : String
  pid_file : String
  worktree : String
  tmux_session : String
  launch_backend : String
  log_file : String
deriving DecidableEq, Repr, Inhabited

structure LockRow where
  key : String
  task_id : String
  owner : String
  scope : String
  lock_file : String
  worktree : String
deriving DecidableEq, Repr, Inhabited

/-- One reconciled worker record, as built by `classify_records`.
Fields the source stores as `value or None` are `Option String`. -/
structure WorkerRecord where
  key : String
  task_id : String
  owner : String
  scope : String
  state : String
  pid : Option Nat
  pid_alive : Bool
  pid_file : Option String
  lock_file : Option String
  worktree : Option String
  tmux_session : Option String
  launch_backend : Option String
  log_file : Option String
  worktree_exists : Bool
  stale : Bool
deriving DecidableEq, Repr, Inhabited

/-- Python `value or None`. -/
def orNone (s : String) : Option String := if s = "" then none else some s

/-- `ACTIVE_STATES` membership. -/
def is_active_state (s : String) : Bool :=
  s = "RUNNING" || s = "LOCKED" || s = "FINALIZING"

/-- `STALE_STATES` membership. -/
def is_stale_state (s : String) : Bool :=
  s = "LOCK_STALE" || s = "FINALIZING_EXITED" || s = "ORPHAN_LOCK" ||
    s = "ORPHAN_PID" || s = "MISSING_WORKTREE"

/-- Lexicographic (code point) comparison on char lists, Python's `<`
on strings. -/
def charListLt : List Char → List Char → Bool
  | [], [] => false
  | [], _ :: _ => true
  | _ :: _, [] => false
  | a :: as, b :: bs => if a < b then true else if b < a then false else charListLt as bs

def strLtB (a b : String) : Bool := charListLt a.data b.data

/-- Stable ascending insertion, used to model Python `sorted`. -/
def insertSorted (s : String) : List String → List String
  | [] => [s]
  | t :: rest => if strLtB t s then t :: insertSorted s rest else s :: t :: rest

/-- Python `sorted` on a list of (distinct) key strings. -/
def sortStrings (l : List String) : List String := l.foldr insertSorted []

/-- The keys of `by_key` in `classify_records`: every pid-row key and
every lock-row key, deduplicated and iterated in sorted order. -/
def recordKeys (pidRows : List PidRow) (lockRows : List LockRow) : List String :=
  sortStrings ((pidRows.map PidRow.key ++ lockRows.map LockRow.key).dedup)

/-- `by_key.setdefault(key, {})["pid"] = row` overwrites, so for each
key the last pid row wins. -/
def lastPidRow (pidRows : List PidRow) (k : String) : Option PidRow :=
  (pidRows.filter (fun r => r.key = k)).getLast?

/-- Likewise the last lock row with the key wins. -/
def lastLockRow (lockRows : List LockRow) (k : String) : Option LockRow :=
  (lockRows.filter (fun r => r.key = k)).getLast?

/-- `pid_row.get(field, "")` where `pid_row` is `{}` when no pid row
carries the key. -/
def pidField (p : Option PidRow) (f : PidRow → String) : String :=
  match p with
  | some r => f r
  | none => ""

def lockField (l : Option LockRow) (f : LockRow → String) : String :=
  match l with
  | some r => f r
  | none => ""

/-- The state decision tree of `classify_records`, as a function of the
truthiness of the four signals (worktree recorded / worktree exists /
pid file present / lock file present) and the liveness bit. -/
def worker_state (wtRecorded wtExists pf lf alive : Bool) : String :=
  if wtRecorded && !wtExists then
    if lf && !pf then "ORPHAN_LOCK"
    else if pf && !lf then "ORPHAN_PID"
    else "MISSING_WORKTREE"
  else if pf && lf && alive then "RUNNING"
  else if pf && lf then "LOCK_STALE"
  else if pf && !lf && alive then "FINALIZING"
  else if pf && !lf then "FINALIZING_EXITED"
  else if lf then "LOCKED"
  else "UNKNOWN"

/-- The per-key body of the `for key in sorted(by_key.keys())` loop. -/
def classify_one (kill : Nat → KillResult) (pathExists : String → Bool)
    (k : String) (p : Option PidRow) (l : Option LockRow) : WorkerRecord :=
  let task_id := pyOr (pidField p PidRow.task_id) (pyOr (lockField l LockRow.task_id) k)
  let owner := pyOr (pidField p PidRow.owner) (pyOr (lockField l LockRow.owner) "")
  let scope := pyOr (pidField p PidRow.scope) (pyOr (lockField l LockRow.scope) "")
  let worktree := pyOr (pidField p PidRow.worktree) (pyOr (lockField l LockRow.worktree) "")
  let pid := pidField p PidRow.pid
  let pid_file := pidField p PidRow.pid_file
  let lock_file := lockField l LockRow.lock_file
  let tmux_session := pidField p PidRow.tmux_session
  let launch_backend := pidField p PidRow.launch_backend
  let log_file := pidField p PidRow.log_file
  let pid_alive := pyTruthy pid_file && is_pid_alive kill pid
  let worktree_exists := pyTruthy worktree && pathExists worktree
  let state := worker_state (pyTruthy worktree) worktree_exists
    (pyTruthy pid_file) (pyTruthy lock_file) pid_alive
  { key := k
    task_id := task_id
    owner := owner
    scope := scope
    state := state
    pid := if pyIsDigitStr pid then some (digitsToNat pid) else none
    pid_alive := pid_alive
    pid_file := orNone pid_file
    lock_file := orNone lock_file
    worktree := orNone worktree
    tmux_session := orNone tmux_session
    launch_backend := orNone launch_backend
    log_file := orNone log_file
    worktree_exists := worktree_exists
    stale := is_stale_state state }

/-- `classify_records(pid_rows, lock_rows)` from state_model.py. -/
def classify_records (kill : Nat → KillResult) (pathExists : String → Bool)
    (pidRows : List PidRow) (lockRows : List LockRow) : List WorkerRecord :=
  (recordKeys pidRows lockRows).map
    (fun k => classify_one kill pathExists k (lastPidRow pidRows k) (lastLockRow lockRows k))

/-! ## C1: the state matches the spec's priority table -/

/-- The state priority table as the spec words it (§4.2): a recorded but
missing worktree yields the orphan triage; otherwise liveness/lock
presence picks among RUNNING, LOCK_STALE, FINALIZING,
FINALIZING_EXITED, LOCKED, UNKNOWN. -/
def worker_state_spec (wtRecorded wtExists pf lf alive : Bool) : String :=
  if wtRecorded && !wtExists then
    if lf && !pf then "ORPHAN_LOCK"
    else if pf && !lf then "ORPHAN_PID"
    else "MISSING_WORKTREE"
  else if pf && lf && alive then "RUNNING"
  else if pf && lf && !alive then "LOCK_STALE"
  else if pf && !lf && alive then "FINALIZING"
  else if pf && !lf && !alive then "FINALIZING_EXITED"
  else if !pf && lf then "LOCKED"
  else "UNKNOWN"

theorem worker_state_eq_spec (a b c d e : Bool) :
    worker_state a b c d e = worker_state_spec a b c d e := by
  revert a b c d e; decide

theorem orNone_isSome (s : String) : (orNone s).isSome = pyTruthy s := by
  unfold orNone pyTruthy
  by_cases h : s = "" <;> simp [h]

/-- C1: every record produced by `classify_records`, over any pair of
inventories and any process/filesystem oracles, carries exactly the
state that the spec's priority table assigns to its recorded-worktree,
worktree-exists, pid-file, lock-file and liveness signals. -/
theorem classify_records_state_matches_spec
    (kill : Nat → KillResult) (pathExists : String → Bool)
    (pidRows : List PidRow) (lockRows : List LockRow) :
    ∀ rec ∈ classify_records kill pathExists pidRows lockRows,
      rec.state = worker_state_spec rec.worktree.isSome rec.worktree_exists
        rec.pid_file.isSome rec.lock_file.isSome rec.pid_alive := by
  intro rec hrec
  obtain ⟨k, _, rfl⟩ := List.mem_map.mp hrec
  simp only [classify_one, orNone_isSome]
  exact worker_state_eq_spec _ _ _ _ _

def pidRowC1 : PidRow :=
  { key := "T1-001", task_id := "T1-001", owner := "AgentA", scope := "app-shell"
    pid := "123", pid_file := "/s/orchestrator/worker.pid", worktree := "/tmp/wt"
    tmux_session := "tmux-1", launch_backend := "tmux", log_file := "/tmp/wt.log" }

def lockRowC1 : LockRow :=
  { key := "T1-001", task_id := "T1-001", owner := "AgentA", scope := "app-shell"
    lock_file := "/s/locks/app-shell.lock", worktree := "/tmp/wt" }

def recC1 : WorkerRecord :=
  { key := "T1-001", task_id := "T1-001", owner := "AgentA", scope := "app-shell"
    state := "RUNNING", pid := some 123, pid_alive := true
    pid_file := some "/s/orchestrator/worker.pid"
    lock_file := some "/s/locks/app-shell.lock"
    worktree := some "/tmp/wt", tmux_session := some "tmux-1"
    launch_backend := some "tmux", log_file := some "/tmp/wt.log"
    worktree_exists := true, stale := false }

/-- Witness for C1: a live pid-and-lock pair over an existing worktree
classifies as the record `recC1` and the table agrees. -/
theorem classify_records_state_matches_spec_witness :
    recC1 ∈ classify_records (fun _ => KillResult.ok) (fun _ => true) [pidRowC1] [lockRowC1] ∧
    recC1.state = worker_state_spec recC1.worktree.isSome recC1.worktree_exists
      recC1.pid_file.isSome recC1.lock_file.isSome recC1.pid_alive :=
  ⟨by decide,
    classify_records_state_matches_spec (fun _ => KillResult.ok) (fun _ => true)
      [pidRowC1] [lockRowC1] recC1 (by decide)⟩

/-! ## engine.py: active-signal aggregation and the ready loop

`_ready_payload` reads the board, the config and the two inventories
from disk; those inputs are parameters here.  The external task-spec
collaborator (`evaluate_task_spec`, whose module is not part of the
scheduling core) is a parameter `specEval` returning its
exists/valid/summary contract.  Python dictionaries built by the loops
are association lists: assignment to a present key updates it in place,
a new key is appended, iteration follows the list. -/

/-- `owner_key(owner)` from config.py: lowercase, dropping every
non-alphanumeric character. -/
def owner_key (owner : String) : String :=
  ⟨(owner.data.filter Char.isAlphanum).map Char.toLower⟩

/-- Truthiness of an optional string (`bool(row.get(...))` where the
stored value is `None` or a string). -/
def optTruthy (s : Option String) : Bool :=
  match s with
  | none => false
  | some v => v ≠ ""

/-- Dictionary read: first (unique) binding of the key. -/
def assocGet {α : Type} (m : List (String × α)) (k : String) : Option α :=
  (m.find? (fun p => p.1 = k)).map (fun p => p.2)

/-- Dictionary write `d[k] = v`: update the (unique) binding in place if
present, else append; a Python dict keeps the key's original position on
update and appends new keys. -/
def assocSet {α : Type} : List (String × α) → String → α → List (String × α)
  | [], k, v => [(k, v)]
  | p :: rest, k, v =>
    if p.1 = k then (k, v) :: rest else p :: assocSet rest k v

/-- `d.setdefault(k, []).append(v)`. -/
def assocAppend {α : Type} : List (String × List α) → String → α → List (String × List α)
  | [], k, v => [(k, [v])]
  | p :: rest, k, v =>
    if p.1 = k then (p.1, p.2 ++ [v]) :: rest else p :: assocAppend rest k v

/-- `set.add`: sets are modelled as duplicate-free lists, only
membership is consumed. -/
def setAdd (s : List String) (x : String) : List String :=
  if x ∈ s then s else s ++ [x]

structure Signal where
  reason : String
  source : String
deriving DecidableEq, Repr, Inhabited

/-- Accumulator of the first pass of `_active_maps`. -/
structure ActiveAcc where
  active_by_task : List (String × Signal)
  active_owner_keys : List String
  task_active_records : List (String × List WorkerRecord)
deriving Repr, Inhabited

/-- One iteration of the `for row in records` loop of `_active_maps`. -/
def activeStep (acc : ActiveAcc) (row : WorkerRecord) : ActiveAcc :=
  if row.task_id = "" || !is_active_state row.state then acc
  else
    let acc := { acc with
      task_active_records := assocAppend acc.task_active_records row.task_id row }
    let acc := if row.owner ≠ "" then
        { acc with active_owner_keys := setAdd acc.active_owner_keys (owner_key row.owner) }
      else acc
    if row.pid_alive then
      { acc with active_by_task :=
          assocSet acc.active_by_task row.task_id ⟨"active_worker", "pid"⟩ }
    else if optTruthy row.lock_file &&
        (assocGet acc.active_by_task row.task_id).isNone then
      { acc with active_by_task :=
          assocSet acc.active_by_task row.task_id ⟨"active_lock", "lock"⟩ }
    else acc

/-- One iteration of the conflict loop of `_active_maps`.  Inside the
branch `len(rows) > 1` always holds, so the disjunction with
`len(owner_keys) > 1` is kept verbatim but is always true.  The owner
key set is a deduplicated list (only its size is read). -/
def conflictStep (cmap : List (String × String)) (p : String × List WorkerRecord) :
    List (String × String) :=
  if p.2.length ≤ 1 then cmap
  else if (p.2.any fun r => optTruthy r.lock_file) && (p.2.any fun r => r.pid_alive) then
    if 1 < (((p.2.filter (fun r => r.owner ≠ "")).map
        (fun r => owner_key r.owner)).dedup).length ∨ 1 < p.2.length then
      assocSet cmap p.1 "active_signal_conflict"
    else cmap
  else cmap

/-- Result of `_active_maps`. -/
structure ActiveView where
  active_by_task : List (String × Signal)
  active_owner_keys : List String
  conflict_by_task : List (String × String)
deriving Repr, Inhabited

/-- `_active_maps(records)` from engine.py. -/
def active_maps (records : List WorkerRecord) : ActiveView :=
  let acc := records.foldl activeStep ⟨[], [], []⟩
  { active_by_task := acc.active_by_task
    active_owner_keys := acc.active_owner_keys
    conflict_by_task := acc.task_active_records.foldl conflictStep [] }

/-! ### the scheduling loop of `_ready_payload` -/

structure BoardTask where
  id : String
  title : String
  owner : String
  deps : String
  status : String
deriving DecidableEq, Repr, Inhabited

/-- The task-spec collaborator contract (`evaluate_task_spec`); the
field `exists` of the source dict is `specExists` (`exists` is reserved
in Lean). -/
structure SpecInfo where
  specExists : Bool
  valid : Bool
  spec_rel_path : String
  goal_summary : String
  in_scope_summary : String
  acceptance_summary : String
deriving DecidableEq, Repr, Inhabited

structure ReadyEntry where
  task_id : String
  title : String
  owner : String
  owner_key : String
  scope : String
  deps : String
  status : String
  spec_rel_path : String
  goal_summary : String
  in_scope_summary : String
  acceptance_summary : String
deriving DecidableEq, Repr, Inhabited

structure ExcludedEntry where
  task_id : String
  title : String
  owner : String
  scope : String
  deps : String
  status : String
  reason : String
  source : String
deriving DecidableEq, Repr, Inhabited

structure LockView where
  task_id : String
  owner : String
  scope : String
deriving DecidableEq, Repr, Inhabited

structure ReadyPayload where
  max_start : Int
  running_locks : List LockView
  ready_tasks : List ReadyEntry
  excluded_tasks : List ExcludedEntry
deriving DecidableEq, Repr, Inhabited

/-- `build_indexes(tasks)` from todo_parser.py: `{id: status}` with the
last row winning, read back through `.get`. -/
def build_indexes (tasks : List BoardTask) : String → Option String :=
  fun k => ((tasks.filter (fun t => t.id = k)).getLast?).map BoardTask.status

/-- The excluded-row dictionary literal repeated through
`_ready_payload`. -/
def mkExcluded (t : BoardTask) (scope reason source : String) : ExcludedEntry :=
  { task_id := t.id, title := t.title, owner := t.owner, scope := scope
    deps := t.deps, status := t.status, reason := reason, source := source }

def mkReady (t : BoardTask) (k scope : String) (sp : SpecInfo) : ReadyEntry :=
  { task_id := t.id, title := t.title, owner := t.owner, owner_key := k
    scope := scope, deps := t.deps, status := t.status
    spec_rel_path := sp.spec_rel_path, goal_summary := sp.goal_summary
    in_scope_summary := sp.in_scope_summary
    acceptance_summary := sp.acceptance_summary }

/-- The verdict the body of the `for task in tasks` loop of
`_ready_payload` reaches for one task, given the scheduled-owner set so
far: fall through (`continue` without reporting), exclude with a
reason, or append to READY (also yielding the owner key to mark
scheduled).  The checks appear in source order; each `continue` of the
source is one arm here. -/
inductive StepOutcome where
  | skip
  | exclude (e : ExcludedEntry)
  | ready (e : ReadyEntry) (k : String)
deriving DecidableEq, Repr

def ready_step (ownersByKey : String → Option String) (specEval : String → SpecInfo)
    (taskStatus gates : String → Option String)
    (conflict : String → Bool) (signal : String → Option Signal)
    (busy : String → Bool) (sched : List String) (t : BoardTask) : StepOutcome :=
  if t.status ≠ "TODO" then StepOutcome.skip
  else
    let k := owner_key t.owner
    let scope := (ownersByKey k).getD ""
    if scope = "" then StepOutcome.skip
    else if conflict t.id then
      StepOutcome.exclude (mkExcluded t scope "active_signal_conflict" "scheduler")
    else
      match signal t.id with
      | some sig => StepOutcome.exclude (mkExcluded t scope sig.reason sig.source)
      | none =>
        if busy k || sched.contains k then
          StepOutcome.exclude (mkExcluded t scope "owner_busy" "scheduler")
        else
          let sp := specEval t.id
          if !sp.specExists then
            StepOutcome.exclude (mkExcluded t scope "missing_task_spec" "scheduler")
          else if !sp.valid then
            StepOutcome.exclude (mkExcluded t scope "invalid_task_spec" "scheduler")
          else if !deps_ready t.deps taskStatus gates then
            StepOutcome.exclude (mkExcluded t scope "deps_not_ready" "scheduler")
          else StepOutcome.ready (mkReady t k scope sp) k

/-- The `for task in tasks` loop of `_ready_payload`: ready, excluded
and scheduled-owner accumulators are explicit, and reaching the
maximum-starts limit right after a READY append returns early (the
source `break`). -/
def ready_loop (ownersByKey : String → Option String) (specEval : String → SpecInfo)
    (taskStatus gates : String → Option String)
    (conflict : String → Bool) (signal : String → Option Signal)
    (busy : String → Bool) (maxStart : Int) :
    List BoardTask → List ReadyEntry → List ExcludedEntry → List String →
    List ReadyEntry × List ExcludedEntry
  | [], ready, excluded, _ => (ready, excluded)
  | t :: rest, ready, excluded, sched =>
    match ready_step ownersByKey specEval taskStatus gates conflict signal busy sched t with
    | StepOutcome.skip =>
      ready_loop ownersByKey specEval taskStatus gates conflict signal busy maxStart
        rest ready excluded sched
    | StepOutcome.exclude e =>
      ready_loop ownersByKey specEval taskStatus gates conflict signal busy maxStart
        rest ready (excluded ++ [e]) sched
    | StepOutcome.ready e k =>
      if 0 < maxStart ∧ maxStart ≤ ((ready ++ [e]).length : Int) then (ready ++ [e], excluded)
      else
        ready_loop ownersByKey specEval taskStatus gates conflict signal busy maxStart
          rest (ready ++ [e]) excluded (sched ++ [k])

/-- `_ready_payload` from engine.py, with the on-disk inputs (board
rows, gate map, owner mapping, max-start limit, inventories) and the
external collaborators (process table, filesystem, task-spec checker)
as parameters. -/
def ready_payload (kill : Nat → KillResult) (pathExists : String → Bool)
    (tasks : List BoardTask) (gates : String → Option String)
    (ownersByKey : String → Option String) (maxStart : Int)
    (specEval : String → SpecInfo)
    (pidRows : List PidRow) (lockRows : List LockRow) : ReadyPayload :=
  let taskStatus := build_indexes tasks
  let records := classify_records kill pathExists pidRows lockRows
  let av := active_maps records
  let rl := ready_loop ownersByKey specEval taskStatus gates
    (fun tid => (assocGet av.conflict_by_task tid).isSome)
    (fun tid => assocGet av.active_by_task tid)
    (fun k => av.active_owner_keys.contains k)
    maxStart tasks [] [] []
  { max_start := maxStart
    running_locks := lockRows.map (fun l =>
      { task_id := l.task_id, owner := l.owner, scope := l.scope })
    ready_tasks := rl.1
    excluded_tasks := rl.2 }

/-! ### dictionary lemmas -/

theorem assocGet_nil {α : Type} (k : String) : assocGet ([] : List (String × α)) k = none := rfl

theorem assocGet_cons {α : Type} (p : String × α) (rest : List (String × α)) (k : String) :
    assocGet (p :: rest) k = if p.1 = k then some p.2 else assocGet rest k := by
  by_cases h : p.1 = k <;> simp [assocGet, List.find?, h]

theorem assocGet_assocSet_self {α : Type} (m : List (String × α)) (k : String) (v : α) :
    assocGet (assocSet m k v) k = some v := by
  induction m with
  | nil => simp [assocSet, assocGet_cons]
  | cons p rest ih =>
    by_cases hp : p.1 = k
    · simp [assocSet, hp, assocGet_cons]
    · simp [assocSet, hp, assocGet_cons, ih]

theorem assocGet_assocSet_other {α : Type} (m : List (String × α)) (k k' : String) (v : α)
    (h : k' ≠ k) : assocGet (assocSet m k v) k' = assocGet m k' := by
  have h' : ¬ ((k : String) = k') := fun hc => h hc.symm
  induction m with
  | nil => simp [assocSet, assocGet_cons, assocGet_nil, h']
  | cons p rest ih =>
    by_cases hp : p.1 = k
    · have hp' : ¬ (p.1 = k') := by rw [hp]; exact h'
      simp [assocSet, hp, assocGet_cons, h', hp']
    · simp [assocSet, hp, assocGet_cons, ih]

theorem assocGet_assocAppend_self {α : Type} (m : List (String × List α)) (k : String) (v : α) :
    assocGet (assocAppend m k v) k = some (((assocGet m k).getD []) ++ [v]) := by
  induction m with
  | nil => simp [assocAppend, assocGet_cons, assocGet_nil]
  | cons p rest ih =>
    by_cases hp : p.1 = k
    · simp [assocAppend, hp, assocGet_cons]
    · simp [assocAppend, hp, assocGet_cons, ih]

theorem assocGet_assocAppend_other {α : Type} (m : List (String × List α)) (k k' : String)
    (v : α) (h : k' ≠ k) : assocGet (assocAppend m k v) k' = assocGet m k' := by
  have h' : ¬ ((k : String) = k') := fun hc => h hc.symm
  induction m with
  | nil => simp [assocAppend, assocGet_cons, assocGet_nil, h']
  | cons p rest ih =>
    by_cases hp : p.1 = k
    · have hp' : ¬ (p.1 = k') := by rw [hp]; exact h'
      simp [assocAppend, hp, assocGet_cons, h', hp']
    · simp [assocAppend, hp, assocGet_cons, ih]

theorem mem_setAdd (s : List String) (x y : String) :
    y ∈ setAdd s x ↔ y ∈ s ∨ y = x := by
  unfold setAdd
  by_cases h : x ∈ s
  · simp only [h, if_pos rfl]
    constructor
    · exact Or.inl
    · rintro (hy | rfl)
      · exact hy
      · exact h
  · simp [h]

/-! ### characterizing `_active_maps` -/

/-- A record the aggregation pre-pass keeps: nonempty task id in an
active state. -/
def isActiveRow (r : WorkerRecord) : Bool :=
  r.task_id ≠ "" && is_active_state r.state

/-- The rows `task_active_records[tid]` collects. -/
def activeRowsFor (records : List WorkerRecord) (tid : String) : List WorkerRecord :=
  records.filter (fun r => r.task_id = tid && isActiveRow r)

theorem isActiveRow_false_of_skip {r : WorkerRecord}
    (h : (r.task_id = "" || !is_active_state r.state) = true) :
    isActiveRow r = false := by
  unfold isActiveRow
  rcases Bool.or_eq_true_iff.mp h with h1 | h1
  · simp at h1
    simp [h1]
  · simp only [Bool.not_eq_true'] at h1
    simp [h1]

theorem activeStep_skip {acc : ActiveAcc} {r : WorkerRecord}
    (h : (r.task_id = "" || !is_active_state r.state) = true) :
    activeStep acc r = acc := by
  simp [activeStep, h]

theorem activeRowsFor_cons_false {records : List WorkerRecord} {r : WorkerRecord}
    {tid : String} (h : (r.task_id = tid && isActiveRow r) = false) :
    activeRowsFor (r :: records) tid = activeRowsFor records tid := by
  unfold activeRowsFor
  rw [List.filter_cons, if_neg (by simp [h])]

theorem activeRowsFor_cons_true {records : List WorkerRecord} {r : WorkerRecord}
    {tid : String} (h : (r.task_id = tid && isActiveRow r) = true) :
    activeRowsFor (r :: records) tid = r :: activeRowsFor records tid := by
  unfold activeRowsFor
  rw [List.filter_cons, if_pos (by simp_all)]

theorem activeStep_fold_by_task (records : List WorkerRecord) (acc : ActiveAcc)
    (tid : String) :
    assocGet (records.foldl activeStep acc).active_by_task tid =
      if (activeRowsFor records tid).any (fun r => r.pid_alive) then
        some ⟨"active_worker", "pid"⟩
      else
        match assocGet acc.active_by_task tid with
        | some s => some s
        | none =>
          if (activeRowsFor records tid).any (fun r => optTruthy r.lock_file) then
            some ⟨"active_lock", "lock"⟩
          else none := by
  induction records generalizing acc with
  | nil =>
    simp only [List.foldl_nil, activeRowsFor, List.filter_nil, List.any_nil,
      Bool.false_eq_true, if_neg, ite_false]
    cases h : assocGet acc.active_by_task tid <;> simp
  | cons r rest ih =>
    simp only [List.foldl_cons]
    by_cases hskip : (r.task_id = "" || !is_active_state r.state) = true
    · rw [activeStep_skip hskip,
        activeRowsFor_cons_false (by simp [isActiveRow_false_of_skip hskip]),
        ih acc]
    · have hprops : ¬ r.task_id = "" ∧ is_active_state r.state = true := by
        simpa using hskip
      have hact : is_active_state r.state = true := hprops.2
      have htid_ne : r.task_id ≠ "" := hprops.1
      have hrow : isActiveRow r = true := by
        simp [isActiveRow, htid_ne, hact]
      by_cases htid : r.task_id = tid
      · -- the row lands in this task id's bucket
        rw [activeRowsFor_cons_true (by simp [htid, hrow])]
        have hstep : (activeStep acc r).active_by_task =
            (if r.pid_alive then assocSet acc.active_by_task r.task_id ⟨"active_worker", "pid"⟩
             else if optTruthy r.lock_file && (assocGet acc.active_by_task r.task_id).isNone then
               assocSet acc.active_by_task r.task_id ⟨"active_lock", "lock"⟩
             else acc.active_by_task) := by
          simp only [activeStep, hskip, Bool.false_eq_true, if_neg, ite_false]
          by_cases ho : r.owner ≠ "" <;> by_cases ha : r.pid_alive <;>
            simp [ho, ha] <;> split <;> simp
        by_cases ha : r.pid_alive = true
        · rw [ih]
          simp only [hstep, ha, if_pos rfl, htid, List.any_cons, Bool.true_or,
            if_pos rfl, assocGet_assocSet_self]
          by_cases hrest : (activeRowsFor rest tid).any (fun r => r.pid_alive) = true
          · simp [hrest]
          · simp [hrest, assocGet_assocSet_self]
        · by_cases hl : (optTruthy r.lock_file &&
              (assocGet acc.active_by_task r.task_id).isNone) = true
          · rw [ih]
            simp only [hstep, ha, Bool.false_eq_true, if_neg, ite_false, hl, if_pos rfl,
              htid, List.any_cons]
            have hlock : optTruthy r.lock_file = true := (Bool.and_eq_true_iff.mp hl).1
            have hnone : assocGet acc.active_by_task tid = none := by
              have := (Bool.and_eq_true_iff.mp hl).2
              rw [htid] at this
              exact Option.isNone_iff_eq_none.mp this
            by_cases hrest : (activeRowsFor rest tid).any (fun r => r.pid_alive) = true
            · simp [hrest, ha, assocGet_assocSet_self, htid]
            · simp [hrest, ha, assocGet_assocSet_self, htid, hnone, hlock]
          · rw [ih]
            simp only [hstep, ha, Bool.false_eq_true, if_neg, ite_false, hl]
            by_cases hrest : (activeRowsFor rest tid).any (fun r => r.pid_alive) = true
            · simp [hrest, ha]
            · simp only [hrest, Bool.false_eq_true, if_neg, ite_false, List.any_cons, ha,
                Bool.false_or]
              cases hacc : assocGet acc.active_by_task tid
              · -- no earlier entry: the lock test on r must have failed
                have hlock : optTruthy r.lock_file = false := by
                  by_contra hc
                  have hc' : optTruthy r.lock_file = true := by
                    cases hcc : optTruthy r.lock_file
                    · exact absurd hcc hc
                    · rfl
                  apply hl
                  rw [htid, hacc]
                  simp [hc']
                simp [hlock]
              · rfl
      · -- the row belongs to a different task id bucket
        rw [activeRowsFor_cons_false (by simp [htid])]
        have htid' : tid ≠ r.task_id := fun hc => htid hc.symm
        have hbt : assocGet (activeStep acc r).active_by_task tid =
            assocGet acc.active_by_task tid := by
          simp only [activeStep, hskip, Bool.false_eq_true, if_neg, ite_false]
          by_cases ho : r.owner ≠ "" <;> by_cases ha : r.pid_alive <;>
            simp [ho, ha, assocGet_assocSet_other _ _ _ _ htid'] <;> split <;>
            simp [assocGet_assocSet_other _ _ _ _ htid']
        rw [ih, hbt]

theorem activeStep_fold_owner_keys (records : List WorkerRecord) (acc : ActiveAcc)
    (k : String) :
    k ∈ (records.foldl activeStep acc).active_owner_keys ↔
      k ∈ acc.active_owner_keys ∨
        ∃ r ∈ records, isActiveRow r = true ∧ r.owner ≠ "" ∧ owner_key r.owner = k := by
  induction records generalizing acc with
  | nil => simp
  | cons r rest ih =>
    simp only [List.foldl_cons]
    by_cases hskip : (r.task_id = "" || !is_active_state r.state) = true
    · rw [activeStep_skip hskip, ih acc]
      have hrow := isActiveRow_false_of_skip hskip
      simp [hrow]
    · have hprops : ¬ r.task_id = "" ∧ is_active_state r.state = true := by
        simpa using hskip
      have hrow : isActiveRow r = true := by
        simp [isActiveRow, hprops.1, hprops.2]
      have hkeys : (activeStep acc r).active_owner_keys =
          (if r.owner ≠ "" then setAdd acc.active_owner_keys (owner_key r.owner)
           else acc.active_owner_keys) := by
        simp only [activeStep, hskip, Bool.false_eq_true, if_neg, ite_false]
        by_cases ho : r.owner ≠ "" <;> by_cases ha : r.pid_alive <;>
          simp [ho, ha] <;> split <;> simp
      rw [ih, hkeys]
      by_cases ho : r.owner = ""
      · simp only [ho, ne_eq, not_true_eq_false, if_neg, ite_false]
        constructor
        · rintro (h | h)
          · exact Or.inl h
          · exact Or.inr (by
              obtain ⟨x, hx, h1, h2, h3⟩ := h
              exact ⟨x, List.mem_cons_of_mem r hx, h1, h2, h3⟩)
        · rintro (h | ⟨x, hx, h1, h2, h3⟩)
          · exact Or.inl h
          · rcases List.mem_cons.mp hx with rfl | hx'
            · exact absurd ho h2
            · exact Or.inr ⟨x, hx', h1, h2, h3⟩
      · simp only [ho, ne_eq, not_false_eq_true, if_pos, ite_true, mem_setAdd]
        constructor
        · rintro ((h | h) | h)
          · exact Or.inl h
          · exact Or.inr ⟨r, List.mem_cons_self r rest, hrow, ho, h.symm⟩
          · obtain ⟨x, hx, h1, h2, h3⟩ := h
            exact Or.inr ⟨x, List.mem_cons_of_mem r hx, h1, h2, h3⟩
        · rintro (h | ⟨x, hx, h1, h2, h3⟩)
          · exact Or.inl (Or.inl h)
          · rcases List.mem_cons.mp hx with rfl | hx'
            · exact Or.inl (Or.inr h3.symm)
            · exact Or.inr ⟨x, hx', h1, h2, h3⟩

theorem activeStep_fold_task_records (records : List WorkerRecord) (acc : ActiveAcc)
    (tid : String) :
    assocGet (records.foldl activeStep acc).task_active_records tid =
      match assocGet acc.task_active_records tid with
      | some l => some (l ++ activeRowsFor records tid)
      | none =>
        if activeRowsFor records tid = [] then none
        else some (activeRowsFor records tid) := by
  induction records generalizing acc with
  | nil =>
    simp only [List.foldl_nil, activeRowsFor, List.filter_nil, List.append_nil, ite_true]
    cases h : assocGet acc.task_active_records tid <;> simp
  | cons r rest ih =>
    simp only [List.foldl_cons]
    by_cases hskip : (r.task_id = "" || !is_active_state r.state) = true
    · rw [activeStep_skip hskip,
        activeRowsFor_cons_false (by simp [isActiveRow_false_of_skip hskip]), ih acc]
    · have hprops : ¬ r.task_id = "" ∧ is_active_state r.state = true := by
        simpa using hskip
      have hrow : isActiveRow r = true := by
        simp [isActiveRow, hprops.1, hprops.2]
      have hrecs : (activeStep acc r).task_active_records =
          assocAppend acc.task_active_records r.task_id r := by
        simp only [activeStep, hskip, Bool.false_eq_true, if_neg, ite_false]
        by_cases ho : r.owner ≠ "" <;> by_cases ha : r.pid_alive <;>
          simp [ho, ha] <;> split <;> simp
      rw [ih, hrecs]
      by_cases htid : r.task_id = tid
      · rw [activeRowsFor_cons_true (by simp [htid, hrow]), htid,
          assocGet_assocAppend_self]
        cases hacc : assocGet acc.task_active_records tid
        · simp
        · simp
      · rw [activeRowsFor_cons_false (by simp [htid]),
          assocGet_assocAppend_other _ _ _ _ (fun hc => htid hc.symm)]

/-- The condition under which the conflict loop of `_active_maps` flags
a task id: more than one active row, at least one bearing a lock file
and at least one a live pid. -/
def ConflictCond (rows : List WorkerRecord) : Prop :=
  1 < rows.length ∧ (rows.any fun r => optTruthy r.lock_file) = true ∧
    (rows.any fun r => r.pid_alive) = true

instance decConflictCond (rows : List WorkerRecord) : Decidable (ConflictCond rows) := by
  unfold ConflictCond
  infer_instance

theorem conflictStep_eq (cmap : List (String × String)) (p : String × List WorkerRecord) :
    conflictStep cmap p =
      if ConflictCond p.2 then assocSet cmap p.1 "active_signal_conflict" else cmap := by
  unfold conflictStep
  by_cases hc : ConflictCond p.2
  · rw [if_pos hc]
    obtain ⟨hlen, hlock, hpid⟩ := hc
    rw [if_neg (by omega), if_pos (by rw [hlock, hpid]; rfl), if_pos (Or.inr hlen)]
  · rw [if_neg hc]
    by_cases h1 : p.2.length ≤ 1
    · rw [if_pos h1]
    · rw [if_neg h1]
      by_cases h2 : ((p.2.any fun r => optTruthy r.lock_file) &&
          (p.2.any fun r => r.pid_alive)) = true
      · exact absurd ⟨Nat.lt_of_not_le h1, (Bool.and_eq_true_iff.mp h2).1,
          (Bool.and_eq_true_iff.mp h2).2⟩ hc
      · rw [if_neg h2]

theorem conflictStep_fold_get (items : List (String × List WorkerRecord))
    (cmap : List (String × String)) (tid : String) :
    assocGet (items.foldl conflictStep cmap) tid =
      if ∃ p ∈ items, p.1 = tid ∧ ConflictCond p.2 then some "active_signal_conflict"
      else assocGet cmap tid := by
  induction items generalizing cmap with
  | nil => simp
  | cons p rest ih =>
    simp only [List.foldl_cons, conflictStep_eq]
    by_cases hrest : ∃ q ∈ rest, q.1 = tid ∧ ConflictCond q.2
    · have hcons : ∃ q ∈ p :: rest, q.1 = tid ∧ ConflictCond q.2 := by
        obtain ⟨q, hq, h1, h2⟩ := hrest
        exact ⟨q, List.mem_cons_of_mem p hq, h1, h2⟩
      by_cases hf : ConflictCond p.2
      · rw [if_pos hf, ih, if_pos hrest, if_pos hcons]
      · rw [if_neg hf, ih, if_pos hrest, if_pos hcons]
    · by_cases hf : ConflictCond p.2
      · by_cases hp : p.1 = tid
        · have hcons : ∃ q ∈ p :: rest, q.1 = tid ∧ ConflictCond q.2 :=
            ⟨p, List.mem_cons_self p rest, hp, hf⟩
          rw [if_pos hf, ih, if_neg hrest, if_pos hcons, ← hp, assocGet_assocSet_self]
        · have hcons : ¬ ∃ q ∈ p :: rest, q.1 = tid ∧ ConflictCond q.2 := by
            rintro ⟨q, hq, h1, h2⟩
            rcases List.mem_cons.mp hq with rfl | hq'
            · exact hp h1
            · exact hrest ⟨q, hq', h1, h2⟩
          rw [if_pos hf, ih, if_neg hrest, if_neg hcons,
            assocGet_assocSet_other _ _ _ _ (fun hc => hp hc.symm)]
      · have hcons : ¬ ∃ q ∈ p :: rest, q.1 = tid ∧ ConflictCond q.2 := by
          rintro ⟨q, hq, h1, h2⟩
          rcases List.mem_cons.mp hq with rfl | hq'
          · exact hf h2
          · exact hrest ⟨q, hq', h1, h2⟩
        rw [if_neg hf, ih, if_neg hrest, if_neg hcons]

theorem mem_keys_assocAppend {α : Type} (m : List (String × List α)) (k x : String)
    (v : α) : x ∈ (assocAppend m k v).map Prod.fst ↔ x ∈ m.map Prod.fst ∨ x = k := by
  induction m with
  | nil => simp [assocAppend]
  | cons p rest ih =>
    by_cases hp : p.1 = k
    · rw [show assocAppend (p :: rest) k v = (p.1, p.2 ++ [v]) :: rest from by
        simp [assocAppend, hp]]
      simp only [List.map_cons, List.mem_cons]
      constructor
      · rintro (h | h)
        · exact Or.inl (Or.inl h)
        · exact Or.inl (Or.inr h)
      · rintro ((h | h) | rfl)
        · exact Or.inl h
        · exact Or.inr h
        · exact Or.inl hp.symm
    · rw [show assocAppend (p :: rest) k v = p :: assocAppend rest k v from by
        simp [assocAppend, hp]]
      simp only [List.map_cons, List.mem_cons, ih]
      tauto

theorem nodup_keys_assocAppend {α : Type} (m : List (String × List α)) (k : String)
    (v : α) (h : (m.map Prod.fst).Nodup) : ((assocAppend m k v).map Prod.fst).Nodup := by
  induction m with
  | nil => simp [assocAppend]
  | cons p rest ih =>
    rw [List.map_cons, List.nodup_cons] at h
    by_cases hp : p.1 = k
    · rw [show assocAppend (p :: rest) k v = (p.1, p.2 ++ [v]) :: rest from by
        simp [assocAppend, hp]]
      rw [List.map_cons, List.nodup_cons]
      exact h
    · rw [show assocAppend (p :: rest) k v = p :: assocAppend rest k v from by
        simp [assocAppend, hp]]
      rw [List.map_cons, List.nodup_cons]
      refine ⟨?_, ih h.2⟩
      rw [mem_keys_assocAppend]
      rintro (hmem | hk)
      · exact h.1 hmem
      · exact hp hk

theorem activeStep_fold_keys_nodup (records : List WorkerRecord) (acc : ActiveAcc)
    (h : (acc.task_active_records.map Prod.fst).Nodup) :
    (((records.foldl activeStep acc).task_active_records).map Prod.fst).Nodup := by
  induction records generalizing acc with
  | nil => exact h
  | cons r rest ih =>
    simp only [List.foldl_cons]
    by_cases hskip : (r.task_id = "" || !is_active_state r.state) = true
    · rw [activeStep_skip hskip]
      exact ih acc h
    · have hrecs : (activeStep acc r).task_active_records =
          assocAppend acc.task_active_records r.task_id r := by
        simp only [activeStep, hskip, Bool.false_eq_true, if_neg, ite_false]
        by_cases ho : r.owner ≠ "" <;> by_cases ha : r.pid_alive <;>
          simp [ho, ha] <;> split <;> simp
      apply ih
      rw [hrecs]
      exact nodup_keys_assocAppend _ _ _ h

theorem assocGet_eq_of_mem {α : Type} {items : List (String × α)} {p : String × α}
    (hnd : (items.map Prod.fst).Nodup) (hmem : p ∈ items) :
    assocGet items p.1 = some p.2 := by
  induction items with
  | nil => cases hmem
  | cons q rest ih =>
    rw [List.map_cons, List.nodup_cons] at hnd
    rcases List.mem_cons.mp hmem with rfl | hmem'
    · rw [assocGet_cons, if_pos rfl]
    · have hq : q.1 ≠ p.1 := by
        intro hc
        exact hnd.1 (hc ▸ List.mem_map.mpr ⟨p, hmem', rfl⟩)
      rw [assocGet_cons, if_neg hq]
      exact ih hnd.2 hmem'

theorem assocGet_mem {α : Type} {items : List (String × α)} {k : String} {v : α}
    (h : assocGet items k = some v) : (k, v) ∈ items := by
  induction items with
  | nil => simp [assocGet] at h
  | cons q rest ih =>
    rw [assocGet_cons] at h
    by_cases hq : q.1 = k
    · rw [if_pos hq] at h
      have hv : q.2 = v := Option.some.inj h
      have hqkv : q = (k, v) := by
        obtain ⟨q1, q2⟩ := q
        simp only at hq hv
        rw [hq, hv]
      rw [← hqkv]
      exact List.mem_cons_self q rest
    · rw [if_neg hq] at h
      exact List.mem_cons_of_mem q (ih h)

/-! ### `_active_maps` summary characterizations -/

theorem active_maps_by_task (records : List WorkerRecord) (tid : String) :
    assocGet (active_maps records).active_by_task tid =
      if (activeRowsFor records tid).any (fun r => r.pid_alive) then
        some ⟨"active_worker", "pid"⟩
      else if (activeRowsFor records tid).any (fun r => optTruthy r.lock_file) then
        some ⟨"active_lock", "lock"⟩
      else none := by
  show assocGet (records.foldl activeStep ⟨[], [], []⟩).active_by_task tid = _
  rw [activeStep_fold_by_task]
  by_cases h : (activeRowsFor records tid).any (fun r => r.pid_alive) = true
  · rw [if_pos h, if_pos h]
  · rw [if_neg h, if_neg h]
    rfl

theorem active_maps_owner_keys (records : List WorkerRecord) (k : String) :
    (active_maps records).active_owner_keys.contains k = true ↔
      ∃ r ∈ records, isActiveRow r = true ∧ r.owner ≠ "" ∧ owner_key r.owner = k := by
  rw [List.elem_iff]
  show k ∈ (records.foldl activeStep ⟨[], [], []⟩).active_owner_keys ↔ _
  rw [activeStep_fold_owner_keys]
  simp

theorem active_maps_conflict (records : List WorkerRecord) (tid : String) :
    (assocGet (active_maps records).conflict_by_task tid).isSome = true ↔
      ConflictCond (activeRowsFor records tid) := by
  have hitems :
      (active_maps records).conflict_by_task =
        ((records.foldl activeStep ⟨[], [], []⟩).task_active_records).foldl conflictStep [] :=
    rfl
  have hnd : ((records.foldl activeStep
      (⟨[], [], []⟩ : ActiveAcc)).task_active_records.map Prod.fst).Nodup :=
    activeStep_fold_keys_nodup records ⟨[], [], []⟩ (by simp)
  have hrecs := activeStep_fold_task_records records ⟨[], [], []⟩ tid
  simp only [assocGet_nil] at hrecs
  rw [hitems, conflictStep_fold_get]
  by_cases hex : ∃ p ∈ (records.foldl activeStep
      (⟨[], [], []⟩ : ActiveAcc)).task_active_records, p.1 = tid ∧ ConflictCond p.2
  · rw [if_pos hex]
    simp only [Option.isSome_some, true_iff]
    obtain ⟨p, hp, heq, hcc⟩ := hex
    have hget := assocGet_eq_of_mem hnd hp
    rw [heq] at hget
    rw [hget] at hrecs
    by_cases hempty : activeRowsFor records tid = []
    · rw [if_pos hempty] at hrecs
      cases hrecs
    · rw [if_neg hempty] at hrecs
      rw [← Option.some.inj hrecs]
      exact hcc
  · rw [if_neg hex]
    simp only [assocGet_nil, Option.isSome_none, Bool.false_eq_true, false_iff]
    intro hcc
    have hempty : activeRowsFor records tid ≠ [] := by
      intro hc
      rw [hc] at hcc
      exact absurd hcc.1 (by simp)
    rw [if_neg hempty] at hrecs
    exact hex ⟨(tid, activeRowsFor records tid), assocGet_mem hrecs, rfl, hcc⟩

/-! ### `ready_loop` lemmas -/

section ReadyLoopLemmas

variable (ownersByKey : String → Option String) (specEval : String → SpecInfo)
variable (taskStatus gates : String → Option String)
variable (conflict : String → Bool) (signal : String → Option Signal)
variable (busy : String → Bool) (maxStart : Int)

theorem ready_loop_excluded_mono (tasks : List BoardTask)
    (ready : List ReadyEntry) (excluded : List ExcludedEntry) (sched : List String)
    (x : ExcludedEntry) (hx : x ∈ excluded) :
    x ∈ (ready_loop ownersByKey specEval taskStatus gates conflict signal busy maxStart
      tasks ready excluded sched).2 := by
  induction tasks generalizing ready excluded sched with
  | nil => exact hx
  | cons t rest ih =>
    cases hstep : ready_step ownersByKey specEval taskStatus gates conflict signal busy
        sched t with
    | skip =>
      simp only [ready_loop, hstep]
      exact ih _ _ _ hx
    | exclude e =>
      simp only [ready_loop, hstep]
      exact ih _ _ _ (List.mem_append_left _ hx)
    | ready e k =>
      simp only [ready_loop, hstep]
      by_cases hbrk : 0 < maxStart ∧ maxStart ≤ (((ready ++ [e]).length : Int))
      · rw [if_pos hbrk]
        exact hx
      · rw [if_neg hbrk]
        exact ih _ _ _ hx

theorem ready_loop_ready_extends (tasks : List BoardTask)
    (ready : List ReadyEntry) (excluded : List ExcludedEntry) (sched : List String) :
    ready <+: (ready_loop ownersByKey specEval taskStatus gates conflict signal busy maxStart
      tasks ready excluded sched).1 := by
  induction tasks generalizing ready excluded sched with
  | nil => exact List.prefix_refl ready
  | cons t rest ih =>
    cases hstep : ready_step ownersByKey specEval taskStatus gates conflict signal busy
        sched t with
    | skip =>
      simp only [ready_loop, hstep]
      exact ih _ _ _
    | exclude e =>
      simp only [ready_loop, hstep]
      exact ih _ _ _
    | ready e k =>
      simp only [ready_loop, hstep]
      by_cases hbrk : 0 < maxStart ∧ maxStart ≤ (((ready ++ [e]).length : Int))
      · rw [if_pos hbrk]
        exact List.prefix_append ready [e]
      · rw [if_neg hbrk]
        exact List.IsPrefix.trans (List.prefix_append ready [e]) (ih _ _ _)

/-- If, whatever the scheduled-owner set, the loop body excludes task
`t` with row `e`, then a run over a task list containing `t` either
reports `e` or stopped at the maximum-starts limit before reaching
`t`. -/
theorem ready_loop_exclude_of_step (tasks : List BoardTask)
    (ready : List ReadyEntry) (excluded : List ExcludedEntry) (sched : List String)
    (t : BoardTask) (ht : t ∈ tasks) (e : ExcludedEntry)
    (hstep : ∀ s, ready_step ownersByKey specEval taskStatus gates conflict signal busy
      s t = StepOutcome.exclude e) :
    e ∈ (ready_loop ownersByKey specEval taskStatus gates conflict signal busy maxStart
        tasks ready excluded sched).2 ∨
      (0 < maxStart ∧ maxStart ≤
        (((ready_loop ownersByKey specEval taskStatus gates conflict signal busy maxStart
          tasks ready excluded sched).1.length : Int))) := by
  induction tasks generalizing ready excluded sched with
  | nil => cases ht
  | cons t' rest ih =>
    rcases List.mem_cons.mp ht with rfl | ht'
    · rw [show ready_loop ownersByKey specEval taskStatus gates conflict signal busy maxStart
          (t :: rest) ready excluded sched =
          ready_loop ownersByKey specEval taskStatus gates conflict signal busy maxStart
            rest ready (excluded ++ [e]) sched from by
        simp only [ready_loop, hstep sched]]
      exact Or.inl (ready_loop_excluded_mono ownersByKey specEval taskStatus gates conflict
        signal busy maxStart rest ready (excluded ++ [e]) sched e
        (List.mem_append_right _ (List.mem_singleton.mpr rfl)))
    · cases hstep' : ready_step ownersByKey specEval taskStatus gates conflict signal busy
          sched t' with
      | skip =>
        simp only [ready_loop, hstep']
        exact ih _ _ _ ht'
      | exclude e' =>
        simp only [ready_loop, hstep']
        exact ih _ _ _ ht'
      | ready e' k' =>
        simp only [ready_loop, hstep']
        by_cases hbrk : 0 < maxStart ∧ maxStart ≤ (((ready ++ [e']).length : Int))
        · rw [if_pos hbrk]
          exact Or.inr hbrk
        · rw [if_neg hbrk]
          exact ih _ _ _ ht'

end ReadyLoopLemmas

section ReadyStepLemmas

variable (ownersByKey : String → Option String) (specEval : String → SpecInfo)
variable (taskStatus gates : String → Option String)
variable (conflict : String → Bool) (signal : String → Option Signal)
variable (busy : String → Bool) (maxStart : Int)

theorem ready_step_excludes_conflict (sched : List String) (t : BoardTask)
    (htodo : t.status = "TODO")
    (hscope : (ownersByKey (owner_key t.owner)).getD "" ≠ "")
    (hconf : conflict t.id = true) :
    ready_step ownersByKey specEval taskStatus gates conflict signal busy sched t =
      StepOutcome.exclude (mkExcluded t ((ownersByKey (owner_key t.owner)).getD "")
        "active_signal_conflict" "scheduler") := by
  simp only [ready_step]
  rw [if_neg (fun hc => hc htodo), if_neg hscope, if_pos hconf]

theorem ready_step_excludes_signal (sched : List String) (t : BoardTask) (sig : Signal)
    (htodo : t.status = "TODO")
    (hscope : (ownersByKey (owner_key t.owner)).getD "" ≠ "")
    (hconf : conflict t.id = false) (hsig : signal t.id = some sig) :
    ready_step ownersByKey specEval taskStatus gates conflict signal busy sched t =
      StepOutcome.exclude (mkExcluded t ((ownersByKey (owner_key t.owner)).getD "")
        sig.reason sig.source) := by
  simp only [ready_step]
  rw [if_neg (fun hc => hc htodo), if_neg hscope, if_neg (by simp [hconf]), hsig]

theorem ready_step_excludes_busy (sched : List String) (t : BoardTask)
    (htodo : t.status = "TODO")
    (hscope : (ownersByKey (owner_key t.owner)).getD "" ≠ "")
    (hconf : conflict t.id = false) (hsig : signal t.id = none)
    (hbusy : busy (owner_key t.owner) = true) :
    ready_step ownersByKey specEval taskStatus gates conflict signal busy sched t =
      StepOutcome.exclude (mkExcluded t ((ownersByKey (owner_key t.owner)).getD "")
        "owner_busy" "scheduler") := by
  simp only [ready_step]
  rw [if_neg (fun hc => hc htodo), if_neg hscope, if_neg (by simp [hconf]), hsig]
  simp [hbusy]

theorem ready_step_ready_facts (sched : List String) (t : BoardTask) (e : ReadyEntry)
    (k : String)
    (h : ready_step ownersByKey specEval taskStatus gates conflict signal busy sched t =
      StepOutcome.ready e k) :
    owner_key e.owner = k ∧ k ∉ sched := by
  simp only [ready_step] at h
  by_cases h1 : t.status ≠ "TODO"
  · simp [h1] at h
  · rw [if_neg h1] at h
    by_cases h2 : (ownersByKey (owner_key t.owner)).getD "" = ""
    · simp [h2] at h
    · rw [if_neg h2] at h
      by_cases h3 : conflict t.id = true
      · simp [h3] at h
      · rw [if_neg (by simp [h3])] at h
        cases hsig : signal t.id with
        | some sig => simp [hsig] at h
        | none =>
          simp only [hsig] at h
          by_cases h4 : (busy (owner_key t.owner) ||
              sched.contains (owner_key t.owner)) = true
          · rw [if_pos h4] at h
            exact StepOutcome.noConfusion h
          · rw [if_neg h4] at h
            by_cases h5 : (!(specEval t.id).specExists) = true
            · rw [if_pos h5] at h
              exact StepOutcome.noConfusion h
            · rw [if_neg h5] at h
              by_cases h6 : (!(specEval t.id).valid) = true
              · rw [if_pos h6] at h
                exact StepOutcome.noConfusion h
              · rw [if_neg h6] at h
                by_cases h7 : (!deps_ready t.deps taskStatus gates) = true
                · rw [if_pos h7] at h
                  exact StepOutcome.noConfusion h
                · rw [if_neg h7] at h
                  injection h with he hk
                  constructor
                  · rw [← he, ← hk]
                    rfl
                  · rw [← hk]
                    intro hmem
                    rw [Bool.or_eq_true] at h4
                    push_neg at h4
                    exact absurd (by rw [List.elem_iff]; exact hmem) h4.2

theorem ready_loop_ready_pairwise (tasks : List BoardTask)
    (ready : List ReadyEntry) (excluded : List ExcludedEntry) (sched : List String)
    (hsub : ∀ en ∈ ready, owner_key en.owner ∈ sched)
    (hpw : ready.Pairwise (fun a b => owner_key a.owner ≠ owner_key b.owner)) :
    ((ready_loop ownersByKey specEval taskStatus gates conflict signal busy maxStart
      tasks ready excluded sched).1).Pairwise
        (fun a b => owner_key a.owner ≠ owner_key b.owner) := by
  induction tasks generalizing ready excluded sched with
  | nil => exact hpw
  | cons t rest ih =>
    cases hstep : ready_step ownersByKey specEval taskStatus gates conflict signal busy
        sched t with
    | skip =>
      simp only [ready_loop, hstep]
      exact ih _ _ _ hsub hpw
    | exclude e =>
      simp only [ready_loop, hstep]
      exact ih _ _ _ hsub hpw
    | ready e k =>
      obtain ⟨hek, hknotin⟩ := ready_step_ready_facts ownersByKey specEval taskStatus gates
        conflict signal busy sched t e k hstep
      have hpw2 : (ready ++ [e]).Pairwise
          (fun a b => owner_key a.owner ≠ owner_key b.owner) := by
        rw [List.pairwise_append]
        refine ⟨hpw, List.pairwise_singleton _ _, ?_⟩
        intro a ha b hb
        rw [List.mem_singleton] at hb
        subst hb
        intro hc
        apply hknotin
        rw [← hek, ← hc]
        exact hsub a ha
      simp only [ready_loop, hstep]
      by_cases hbrk : 0 < maxStart ∧ maxStart ≤ (((ready ++ [e]).length : Int))
      · rw [if_pos hbrk]
        exact hpw2
      · rw [if_neg hbrk]
        refine ih _ _ _ ?_ hpw2
        intro en hen
        rcases List.mem_append.mp hen with hmem | hmem
        · exact List.mem_append_left _ (hsub en hmem)
        · rw [List.mem_singleton] at hmem
          subst hmem
          rw [hek]
          exact List.mem_append_right _ (List.mem_singleton.mpr rfl)

theorem ready_loop_cap (tasks : List BoardTask)
    (ready : List ReadyEntry) (excluded : List ExcludedEntry) (sched : List String)
    (h1 : 0 < maxStart) (h2 : (ready.length : Int) < maxStart) :
    (((ready_loop ownersByKey specEval taskStatus gates conflict signal busy maxStart
      tasks ready excluded sched).1.length : Int)) ≤ maxStart := by
  induction tasks generalizing ready excluded sched with
  | nil => exact le_of_lt h2
  | cons t rest ih =>
    cases hstep : ready_step ownersByKey specEval taskStatus gates conflict signal busy
        sched t with
    | skip =>
      simp only [ready_loop, hstep]
      exact ih _ _ _ h2
    | exclude e =>
      simp only [ready_loop, hstep]
      exact ih _ _ _ h2
    | ready e k =>
      simp only [ready_loop, hstep]
      have hlen : (((ready ++ [e]).length : Int)) = ((ready.length : Int)) + 1 := by
        simp
      by_cases hbrk : 0 < maxStart ∧ maxStart ≤ (((ready ++ [e]).length : Int))
      · rw [if_pos hbrk]
        rw [hlen]
        omega
      · rw [if_neg hbrk]
        refine ih _ _ _ ?_
        have h3 : ¬ (maxStart ≤ (((ready ++ [e]).length : Int))) := fun hle => hbrk ⟨h1, hle⟩
        rw [hlen] at h3
        omega

theorem ready_loop_take (tasks : List BoardTask)
    (ready : List ReadyEntry) (excluded : List ExcludedEntry) (sched : List String)
    (h1 : 0 < maxStart) (h2 : (ready.length : Int) < maxStart) :
    (ready_loop ownersByKey specEval taskStatus gates conflict signal busy maxStart
      tasks ready excluded sched).1 =
    ((ready_loop ownersByKey specEval taskStatus gates conflict signal busy 0
      tasks ready excluded sched).1).take maxStart.toNat := by
  induction tasks generalizing ready excluded sched with
  | nil =>
    simp only [ready_loop]
    rw [List.take_of_length_le (by omega : ready.length ≤ maxStart.toNat)]
  | cons t rest ih =>
    cases hstep : ready_step ownersByKey specEval taskStatus gates conflict signal busy
        sched t with
    | skip =>
      simp only [ready_loop, hstep]
      exact ih _ _ _ h2
    | exclude e =>
      simp only [ready_loop, hstep]
      exact ih _ _ _ h2
    | ready e k =>
      simp only [ready_loop, hstep]
      rw [if_neg (show ¬ ((0 : Int) < 0 ∧ (0 : Int) ≤ (((ready ++ [e]).length : Int)))
        from by simp)]
      have hlen0 : (((ready ++ [e]).length : Int)) = ((ready.length : Int)) + 1 := by
        simp
      by_cases hbrk : 0 < maxStart ∧ maxStart ≤ (((ready ++ [e]).length : Int))
      · rw [if_pos hbrk]
        have hpre := ready_loop_ready_extends ownersByKey specEval taskStatus gates conflict
          signal busy 0 rest (ready ++ [e]) excluded (sched ++ [k])
        have h6 := hbrk.2
        have hlen : (ready ++ [e]).length = maxStart.toNat := by omega
        have heq := List.prefix_iff_eq_take.mp hpre
        rw [hlen] at heq
        exact heq
      · rw [if_neg hbrk]
        refine ih _ _ _ ?_
        have h3 : ¬ (maxStart ≤ (((ready ++ [e]).length : Int))) := fun hle => hbrk ⟨h1, hle⟩
        rw [hlen0] at h3
        omega

end ReadyStepLemmas

/-! ## C4: READY-list invariants -/

/-- C4: in every scheduler run the READY list never contains two tasks
whose owners normalize to the same owner key (in particular no owner
twice), and a positive maximum-starts limit caps its length; a limit of
0 imposes no cap — a positive limit merely truncates the uncapped
(limit-0) READY list to its first `max_start` entries. -/
theorem ready_payload_ready_invariants
    (kill : Nat → KillResult) (pathExists : String → Bool) (tasks : List BoardTask)
    (gates ownersByKey : String → Option String) (maxStart : Int)
    (specEval : String → SpecInfo) (pidRows : List PidRow) (lockRows : List LockRow) :
    ((ready_payload kill pathExists tasks gates ownersByKey maxStart specEval pidRows
        lockRows).ready_tasks).Pairwise
      (fun a b => owner_key a.owner ≠ owner_key b.owner) ∧
    (0 < maxStart →
      (((ready_payload kill pathExists tasks gates ownersByKey maxStart specEval pidRows
        lockRows).ready_tasks.length : Int)) ≤ maxStart) ∧
    (0 < maxStart →
      (ready_payload kill pathExists tasks gates ownersByKey maxStart specEval pidRows
        lockRows).ready_tasks =
      ((ready_payload kill pathExists tasks gates ownersByKey 0 specEval pidRows
        lockRows).ready_tasks).take maxStart.toNat) := by
  simp only [ready_payload]
  refine ⟨?_, ?_, ?_⟩
  · exact ready_loop_ready_pairwise _ _ _ _ _ _ _ _ tasks [] [] []
      (fun en hen => absurd hen (List.not_mem_nil en)) List.Pairwise.nil
  · intro h1
    exact ready_loop_cap _ _ _ _ _ _ _ _ tasks [] [] [] h1 (by simpa using h1)
  · intro h1
    exact ready_loop_take _ _ _ _ _ _ _ _ tasks [] [] [] h1 (by simpa using h1)

/-! ### concrete run fixtures for witnesses and counterexamples -/

def specAllOk : String → SpecInfo := fun _ => ⟨true, true, "", "", "", ""⟩

def gatesEmpty : String → Option String := fun _ => none

def ownersAB : String → Option String := fun k =>
  if k = "agenta" then some "app" else if k = "agentb" then some "core" else none

def killAllOk : Nat → KillResult := fun _ => KillResult.ok

def fsAllExists : String → Bool := fun _ => true

def taskA1 : BoardTask := ⟨"T1-001", "first", "AgentA", "-", "TODO"⟩
def taskA2 : BoardTask := ⟨"T1-002", "second", "AgentA", "-", "TODO"⟩
def taskA3 : BoardTask := ⟨"T1-003", "third", "AgentA", "-", "TODO"⟩
def taskB1 : BoardTask := ⟨"T2-001", "bee", "AgentB", "-", "TODO"⟩

/-- A liveness row and matching lock row for `T1-001` (empty worktree
field, so the missing-worktree triage does not fire): reconciles to one
`RUNNING` record. -/
def pidRowA1 : PidRow :=
  { key := "T1-001", task_id := "T1-001", owner := "AgentA", scope := "app"
    pid := "101", pid_file := "w1.pid", worktree := "", tmux_session := ""
    launch_backend := "", log_file := "" }

def lockRowA1 : LockRow :=
  { key := "T1-001", task_id := "T1-001", owner := "AgentA", scope := "app"
    lock_file := "l1.lock", worktree := "" }

/-- A lock-only row for `T1-003`: reconciles to `LOCKED`. -/
def lockRowA3 : LockRow :=
  { key := "T1-003", task_id := "T1-003", owner := "AgentA", scope := "app"
    lock_file := "l3.lock", worktree := "" }

/-- A liveness-only row under key `K1` bearing task id `T1-001`:
reconciles to `FINALIZING` with a live pid. -/
def pidRowConf : PidRow :=
  { key := "K1", task_id := "T1-001", owner := "AgentA", scope := "app"
    pid := "101", pid_file := "w1.pid", worktree := "", tmux_session := ""
    launch_backend := "", log_file := "" }

/-- A lock-only row under key `K2` bearing the same task id `T1-001`:
reconciles to `LOCKED`, giving `T1-001` two active records (one with a
live pid, one with a lock). -/
def lockRowConf : LockRow :=
  { key := "K2", task_id := "T1-001", owner := "AgentA", scope := "app"
    lock_file := "l1.lock", worktree := "" }

/-- Witness for C4 at a two-owner board with `max_start = 1`. -/
theorem ready_payload_ready_invariants_witness :
    ((ready_payload killAllOk fsAllExists [taskA1, taskB1] gatesEmpty ownersAB 1 specAllOk
        [] []).ready_tasks).Pairwise
      (fun a b => owner_key a.owner ≠ owner_key b.owner) ∧
    (((ready_payload killAllOk fsAllExists [taskA1, taskB1] gatesEmpty ownersAB 1 specAllOk
        [] []).ready_tasks.length : Int)) ≤ 1 ∧
    (ready_payload killAllOk fsAllExists [taskA1, taskB1] gatesEmpty ownersAB 1 specAllOk
        [] []).ready_tasks =
      ((ready_payload killAllOk fsAllExists [taskA1, taskB1] gatesEmpty ownersAB 0 specAllOk
        [] []).ready_tasks).take (1 : Int).toNat :=
  ⟨(ready_payload_ready_invariants killAllOk fsAllExists [taskA1, taskB1] gatesEmpty
      ownersAB 1 specAllOk [] []).1,
    (ready_payload_ready_invariants killAllOk fsAllExists [taskA1, taskB1] gatesEmpty
      ownersAB 1 specAllOk [] []).2.1 (by decide),
    (ready_payload_ready_invariants killAllOk fsAllExists [taskA1, taskB1] gatesEmpty
      ownersAB 1 specAllOk [] []).2.2 (by decide)⟩

/-! ## C3: signal conflicts exclude the task -/

/-- C3 (amended): in every scheduler run, a TODO task with a mapped
owner whose task id has more than one worker record in an active state,
at least one bearing a lock file and at least one a live process, is
excluded with reason `active_signal_conflict` and source `scheduler` —
with no requirement that the records disagree on owner or scope —
unless the run already stopped at a positive maximum-starts limit
before reaching the task (in which case the READY list holds at least
`max_start` entries). -/
theorem scheduler_conflict_excludes
    (kill : Nat → KillResult) (pathExists : String → Bool) (tasks : List BoardTask)
    (gates ownersByKey : String → Option String) (maxStart : Int)
    (specEval : String → SpecInfo) (pidRows : List PidRow) (lockRows : List LockRow)
    (t : BoardTask) (ht : t ∈ tasks) (htodo : t.status = "TODO")
    (hscope : (ownersByKey (owner_key t.owner)).getD "" ≠ "")
    (hmany : 1 < (activeRowsFor (classify_records kill pathExists pidRows lockRows)
      t.id).length)
    (hlock : ∃ r ∈ activeRowsFor (classify_records kill pathExists pidRows lockRows) t.id,
      optTruthy r.lock_file = true)
    (halive : ∃ r ∈ activeRowsFor (classify_records kill pathExists pidRows lockRows) t.id,
      r.pid_alive = true) :
    mkExcluded t ((ownersByKey (owner_key t.owner)).getD "") "active_signal_conflict"
        "scheduler" ∈
      (ready_payload kill pathExists tasks gates ownersByKey maxStart specEval pidRows
        lockRows).excluded_tasks ∨
    (0 < maxStart ∧ maxStart ≤
      (((ready_payload kill pathExists tasks gates ownersByKey maxStart specEval pidRows
        lockRows).ready_tasks.length : Int))) := by
  have hcc : ConflictCond (activeRowsFor (classify_records kill pathExists pidRows lockRows)
      t.id) :=
    ⟨hmany, List.any_eq_true.mpr hlock, List.any_eq_true.mpr halive⟩
  have hconfB : (assocGet (active_maps (classify_records kill pathExists pidRows
      lockRows)).conflict_by_task t.id).isSome = true :=
    (active_maps_conflict _ t.id).mpr hcc
  simp only [ready_payload]
  exact ready_loop_exclude_of_step _ _ _ _ _ _ _ _ tasks [] [] [] t ht _
    (fun s => ready_step_excludes_conflict _ _ _ _ _ _ _ s t htodo hscope hconfB)

/-- C3 counterexample to the unqualified claim: with `max_start = 1`
and a READY task earlier on the board, the scheduler stops before
reaching the conflicted TODO task `T1-001` (mapped owner, two active
records, lock and live pid evidence), so no `active_signal_conflict`
row is reported for it. -/
theorem scheduler_conflict_excludes_counterexample :
    ConflictCond (activeRowsFor (classify_records killAllOk fsAllExists [pidRowConf]
      [lockRowConf]) "T1-001") ∧
    taskA1 ∈ [taskB1, taskA1] ∧ taskA1.status = "TODO" ∧
    (ownersAB (owner_key taskA1.owner)).getD "" = "app" ∧
    (ready_payload killAllOk fsAllExists [taskB1, taskA1] gatesEmpty ownersAB 1 specAllOk
      [pidRowConf] [lockRowConf]).excluded_tasks = [] ∧
    (ready_payload killAllOk fsAllExists [taskB1, taskA1] gatesEmpty ownersAB 1 specAllOk
      [pidRowConf] [lockRowConf]).ready_tasks.length = 1 := by
  decide

/-- Witness for C3: with no maximum-starts limit the conflicted task is
excluded with reason `active_signal_conflict`. -/
theorem scheduler_conflict_excludes_witness :
    mkExcluded taskA1 "app" "active_signal_conflict" "scheduler" ∈
      (ready_payload killAllOk fsAllExists [taskA1] gatesEmpty ownersAB 0 specAllOk
        [pidRowConf] [lockRowConf]).excluded_tasks := by
  rcases scheduler_conflict_excludes killAllOk fsAllExists [taskA1] gatesEmpty ownersAB 0
      specAllOk [pidRowConf] [lockRowConf] taskA1 (by decide) (by decide) (by decide)
      (by decide) (by decide) (by decide) with h | h
  · exact h
  · exact absurd h.1 (by decide)

/-! ## C2: active signals and busy owners exclude tasks -/

/-- C2 (amended): in every scheduler run, consider the reconciled
records of the run.  (1) A TODO task with a mapped owner, no signal
conflict on its id, and at least one active record with a live process
bearing its id is excluded with reason `active_worker`, source `pid`.
(2) Same but with no live process and at least one active record
bearing a lock file: excluded with reason `active_lock`, source `lock`.
(3) A TODO task with a mapped owner, no active record bearing its own
id, whose owner key matches the owner of some active record, is
excluded with reason `owner_busy`, source `scheduler`.  Each part holds
unless the run stopped early at a positive maximum-starts limit (then
the READY list holds at least `max_start` entries). -/
theorem scheduler_active_signal_excludes
    (kill : Nat → KillResult) (pathExists : String → Bool) (tasks : List BoardTask)
    (gates ownersByKey : String → Option String) (maxStart : Int)
    (specEval : String → SpecInfo) (pidRows : List PidRow) (lockRows : List LockRow) :
    (∀ t ∈ tasks, t.status = "TODO" →
      (ownersByKey (owner_key t.owner)).getD "" ≠ "" →
      ¬ ConflictCond (activeRowsFor (classify_records kill pathExists pidRows lockRows)
        t.id) →
      (∃ r ∈ activeRowsFor (classify_records kill pathExists pidRows lockRows) t.id,
        r.pid_alive = true) →
      mkExcluded t ((ownersByKey (owner_key t.owner)).getD "") "active_worker" "pid" ∈
        (ready_payload kill pathExists tasks gates ownersByKey maxStart specEval pidRows
          lockRows).excluded_tasks ∨
      (0 < maxStart ∧ maxStart ≤
        (((ready_payload kill pathExists tasks gates ownersByKey maxStart specEval pidRows
          lockRows).ready_tasks.length : Int)))) ∧
    (∀ t ∈ tasks, t.status = "TODO" →
      (ownersByKey (owner_key t.owner)).getD "" ≠ "" →
      ¬ ConflictCond (activeRowsFor (classify_records kill pathExists pidRows lockRows)
        t.id) →
      (∀ r ∈ activeRowsFor (classify_records kill pathExists pidRows lockRows) t.id,
        r.pid_alive = false) →
      (∃ r ∈ activeRowsFor (classify_records kill pathExists pidRows lockRows) t.id,
        optTruthy r.lock_file = true) →
      mkExcluded t ((ownersByKey (owner_key t.owner)).getD "") "active_lock" "lock" ∈
        (ready_payload kill pathExists tasks gates ownersByKey maxStart specEval pidRows
          lockRows).excluded_tasks ∨
      (0 < maxStart ∧ maxStart ≤
        (((ready_payload kill pathExists tasks gates ownersByKey maxStart specEval pidRows
          lockRows).ready_tasks.length : Int)))) ∧
    (∀ t ∈ tasks, t.status = "TODO" →
      (ownersByKey (owner_key t.owner)).getD "" ≠ "" →
      activeRowsFor (classify_records kill pathExists pidRows lockRows) t.id = [] →
      (∃ r ∈ classify_records kill pathExists pidRows lockRows, isActiveRow r = true ∧
        r.owner ≠ "" ∧ owner_key r.owner = owner_key t.owner) →
      mkExcluded t ((ownersByKey (owner_key t.owner)).getD "") "owner_busy" "scheduler" ∈
        (ready_payload kill pathExists tasks gates ownersByKey maxStart specEval pidRows
          lockRows).excluded_tasks ∨
      (0 < maxStart ∧ maxStart ≤
        (((ready_payload kill pathExists tasks gates ownersByKey maxStart specEval pidRows
          lockRows).ready_tasks.length : Int)))) := by
  refine ⟨?_, ?_, ?_⟩
  · intro t ht htodo hscope hnc halive
    have hconfB : (assocGet (active_maps (classify_records kill pathExists pidRows
        lockRows)).conflict_by_task t.id).isSome = false :=
      Bool.eq_false_iff.mpr (fun h => hnc ((active_maps_conflict _ _).mp h))
    have hsigB : assocGet (active_maps (classify_records kill pathExists pidRows
        lockRows)).active_by_task t.id = some ⟨"active_worker", "pid"⟩ := by
      rw [active_maps_by_task, if_pos (List.any_eq_true.mpr halive)]
    simp only [ready_payload]
    exact ready_loop_exclude_of_step _ _ _ _ _ _ _ _ tasks [] [] [] t ht _
      (fun s => ready_step_excludes_signal _ _ _ _ _ _ _ s t ⟨"active_worker", "pid"⟩
        htodo hscope hconfB hsigB)
  · intro t ht htodo hscope hnc hnoalive hlock
    have hconfB : (assocGet (active_maps (classify_records kill pathExists pidRows
        lockRows)).conflict_by_task t.id).isSome = false :=
      Bool.eq_false_iff.mpr (fun h => hnc ((active_maps_conflict _ _).mp h))
    have hnoaliveB : ¬ ((activeRowsFor (classify_records kill pathExists pidRows lockRows)
        t.id).any (fun r => r.pid_alive)) = true := by
      intro h
      obtain ⟨r, hr, hal⟩ := List.any_eq_true.mp h
      rw [hnoalive r hr] at hal
      cases hal
    have hsigB : assocGet (active_maps (classify_records kill pathExists pidRows
        lockRows)).active_by_task t.id = some ⟨"active_lock", "lock"⟩ := by
      rw [active_maps_by_task, if_neg hnoaliveB, if_pos (List.any_eq_true.mpr hlock)]
    simp only [ready_payload]
    exact ready_loop_exclude_of_step _ _ _ _ _ _ _ _ tasks [] [] [] t ht _
      (fun s => ready_step_excludes_signal _ _ _ _ _ _ _ s t ⟨"active_lock", "lock"⟩
        htodo hscope hconfB hsigB)
  · intro t ht htodo hscope hempty hbusyrec
    have hconfB : (assocGet (active_maps (classify_records kill pathExists pidRows
        lockRows)).conflict_by_task t.id).isSome = false := by
      refine Bool.eq_false_iff.mpr (fun h => ?_)
      have hcc := (active_maps_conflict _ _).mp h
      rw [hempty] at hcc
      exact absurd hcc.1 (by simp)
    have hsigB : assocGet (active_maps (classify_records kill pathExists pidRows
        lockRows)).active_by_task t.id = none := by
      rw [active_maps_by_task, hempty]
      simp
    have hbusyB : ((active_maps (classify_records kill pathExists pidRows
        lockRows)).active_owner_keys.contains (owner_key t.owner)) = true :=
      (active_maps_owner_keys _ _).mpr hbusyrec
    simp only [ready_payload]
    exact ready_loop_exclude_of_step _ _ _ _ _ _ _ _ tasks [] [] [] t ht _
      (fun s => ready_step_excludes_busy _ _ _ _ _ _ _ s t htodo hscope hconfB hsigB hbusyB)

/-- C2 counterexample to the unqualified claim.  First run: `T1-003`
(same owner AgentA as signalled `T1-001`, but holding its own lock
record) is excluded `active_lock`/`lock`, not `owner_busy`.  Second
run: with `max_start = 1` the scheduler stops after making `T2-001`
READY, so the signalled task `T1-001` is not reported at all. -/
theorem scheduler_active_signal_counterexample :
    ((ready_payload killAllOk fsAllExists [taskA1, taskA3] gatesEmpty ownersAB 0 specAllOk
        [pidRowA1] [lockRowA1, lockRowA3]).excluded_tasks =
      [mkExcluded taskA1 "app" "active_worker" "pid",
        mkExcluded taskA3 "app" "active_lock" "lock"]) ∧
    (mkExcluded taskA3 "app" "owner_busy" "scheduler" ∉
      (ready_payload killAllOk fsAllExists [taskA1, taskA3] gatesEmpty ownersAB 0 specAllOk
        [pidRowA1] [lockRowA1, lockRowA3]).excluded_tasks) ∧
    ((ready_payload killAllOk fsAllExists [taskB1, taskA1] gatesEmpty ownersAB 1 specAllOk
        [pidRowA1] [lockRowA1]).excluded_tasks = [] ∧
      (ready_payload killAllOk fsAllExists [taskB1, taskA1] gatesEmpty ownersAB 1 specAllOk
        [pidRowA1] [lockRowA1]).ready_tasks.length = 1) := by
  decide

/-- Witness for C2: the spec's scenario — `T1-001` holds a live
liveness+lock pair, `T1-002` (same owner) holds nothing — yields
`active_worker`/`pid` for `T1-001` and `owner_busy` for `T1-002`. -/
theorem scheduler_active_signal_excludes_witness :
    mkExcluded taskA1 "app" "active_worker" "pid" ∈
      (ready_payload killAllOk fsAllExists [taskA1, taskA2] gatesEmpty ownersAB 0 specAllOk
        [pidRowA1] [lockRowA1]).excluded_tasks ∧
    mkExcluded taskA2 "app" "owner_busy" "scheduler" ∈
      (ready_payload killAllOk fsAllExists [taskA1, taskA2] gatesEmpty ownersAB 0 specAllOk
        [pidRowA1] [lockRowA1]).excluded_tasks := by
  constructor
  · rcases (scheduler_active_signal_excludes killAllOk fsAllExists [taskA1, taskA2]
        gatesEmpty ownersAB 0 specAllOk [pidRowA1] [lockRowA1]).1 taskA1 (by decide)
        (by decide) (by decide) (by decide) (by decide) with h | h
    · exact h
    · exact absurd h.1 (by decide)
  · rcases (scheduler_active_signal_excludes killAllOk fsAllExists [taskA1, taskA2]
        gatesEmpty ownersAB 0 specAllOk [pidRowA1] [lockRowA1]).2.2 taskA2 (by decide)
        (by decide) (by decide) (by decide) (by decide) with h | h
    · exact h
    · exact absurd h.1 (by decide)

/-! ## C10: owner identity is owner_key (plus string truthiness)

Two owner strings are interchangeable for the scheduler when they share
the same `owner_key` and the same truthiness (both empty or both
nonempty); the display copies of the owner name in the output are
scrubbed before comparison. -/

def ownerEquivStr (a b : String) : Prop :=
  owner_key a = owner_key b ∧ (a = "" ↔ b = "")

def taskEquiv (a b : BoardTask) : Prop :=
  a.id = b.id ∧ a.title = b.title ∧ ownerEquivStr a.owner b.owner ∧
    a.deps = b.deps ∧ a.status = b.status

def pidRowEquiv (a b : PidRow) : Prop :=
  a.key = b.key ∧ a.task_id = b.task_id ∧ ownerEquivStr a.owner b.owner ∧
    a.scope = b.scope ∧ a.pid = b.pid ∧ a.pid_file = b.pid_file ∧
    a.worktree = b.worktree ∧ a.tmux_session = b.tmux_session ∧
    a.launch_backend = b.launch_backend ∧ a.log_file = b.log_file

def lockRowEquiv (a b : LockRow) : Prop :=
  a.key = b.key ∧ a.task_id = b.task_id ∧ ownerEquivStr a.owner b.owner ∧
    a.scope = b.scope ∧ a.lock_file = b.lock_file ∧ a.worktree = b.worktree

def recordEquiv (a b : WorkerRecord) : Prop :=
  a.key = b.key ∧ a.task_id = b.task_id ∧ ownerEquivStr a.owner b.owner ∧
    a.scope = b.scope ∧ a.state = b.state ∧ a.pid = b.pid ∧
    a.pid_alive = b.pid_alive ∧ a.pid_file = b.pid_file ∧
    a.lock_file = b.lock_file ∧ a.worktree = b.worktree ∧
    a.tmux_session = b.tmux_session ∧ a.launch_backend = b.launch_backend ∧
    a.log_file = b.log_file ∧ a.worktree_exists = b.worktree_exists ∧
    a.stale = b.stale

/-- Scrub the display owner name from a READY row. -/
def scrubReady (e : ReadyEntry) : ReadyEntry := { e with owner := "" }

/-- Scrub the display owner name from an EXCLUDED row. -/
def scrubExcluded (e : ExcludedEntry) : ExcludedEntry := { e with owner := "" }

/-- Scrub the display owner name from a running-lock row. -/
def scrubLock (l : LockView) : LockView := { l with owner := "" }

theorem ownerEquivStr_refl (a : String) : ownerEquivStr a a := ⟨rfl, Iff.rfl⟩

theorem pyOr_ownerEquiv {a₁ a₂ b₁ b₂ : String} (ha : ownerEquivStr a₁ a₂)
    (hb : ownerEquivStr b₁ b₂) : ownerEquivStr (pyOr a₁ b₁) (pyOr a₂ b₂) := by
  unfold pyOr
  by_cases h : a₁ = ""
  · rw [if_pos h, if_pos (ha.2.mp h)]
    exact hb
  · rw [if_neg h, if_neg (fun hc => h (ha.2.mpr hc))]
    exact ha

/-! ### generic `Forall₂` helpers -/

theorem forall₂_map_eq {α β : Type} {R : α → α → Prop} {l₁ l₂ : List α}
    (h : List.Forall₂ R l₁ l₂) (f : α → β) (hf : ∀ a b, R a b → f a = f b) :
    l₁.map f = l₂.map f := by
  induction h with
  | nil => rfl
  | cons hab _ ih => simp [hf _ _ hab, ih]

theorem forall₂_filter {α : Type} {R : α → α → Prop} {l₁ l₂ : List α}
    (h : List.Forall₂ R l₁ l₂) (p : α → Bool) (hp : ∀ a b, R a b → p a = p b) :
    List.Forall₂ R (l₁.filter p) (l₂.filter p) := by
  induction h with
  | nil => exact List.Forall₂.nil
  | cons hab hrest ih =>
    rename_i a b as bs
    by_cases hpa : p a = true
    · rw [List.filter_cons_of_pos hpa, List.filter_cons_of_pos (by rw [← hp a b hab]; exact hpa)]
      exact List.Forall₂.cons hab ih
    · rw [List.filter_cons_of_neg hpa, List.filter_cons_of_neg (by rw [← hp a b hab]; exact hpa)]
      exact ih

theorem forall₂_any_eq {α : Type} {R : α → α → Prop} {l₁ l₂ : List α}
    (h : List.Forall₂ R l₁ l₂) (p : α → Bool) (hp : ∀ a b, R a b → p a = p b) :
    l₁.any p = l₂.any p := by
  induction h with
  | nil => rfl
  | cons hab _ ih => simp [List.any_cons, hp _ _ hab, ih]

theorem forall₂_getLast?_rel {α : Type} {R : α → α → Prop} {l₁ l₂ : List α}
    (h : List.Forall₂ R l₁ l₂) : Option.Rel R l₁.getLast? l₂.getLast? := by
  induction h with
  | nil => exact Option.Rel.none
  | cons hab hrest ih =>
    rename_i a b as bs
    cases hrest with
    | nil => simpa using Option.Rel.some hab
    | cons hxy hrest2 =>
      rw [List.getLast?_cons_cons, List.getLast?_cons_cons]
      exact ih

theorem forall₂_exists_iff {α : Type} {R : α → α → Prop} {l₁ l₂ : List α}
    (h : List.Forall₂ R l₁ l₂) (P : α → Prop) (hp : ∀ a b, R a b → (P a ↔ P b)) :
    (∃ x ∈ l₁, P x) ↔ (∃ x ∈ l₂, P x) := by
  induction h with
  | nil => simp
  | cons hab _ ih =>
    simp only [List.mem_cons, exists_eq_or_imp]
    rw [hp _ _ hab, ih]

theorem optionRel_map_eq {α β : Type} {R : α → α → Prop} {o₁ o₂ : Option α}
    (h : Option.Rel R o₁ o₂) (f : α → β) (hf : ∀ a b, R a b → f a = f b) :
    o₁.map f = o₂.map f := by
  cases h with
  | none => rfl
  | some hab => simp [hf _ _ hab]

theorem forall₂_map_map {α β : Type} {R : β → β → Prop} (l : List α) (f g : α → β)
    (h : ∀ x ∈ l, R (f x) (g x)) : List.Forall₂ R (l.map f) (l.map g) := by
  induction l with
  | nil => exact List.Forall₂.nil
  | cons x rest ih =>
    exact List.Forall₂.cons (h x (List.mem_cons_self x rest))
      (ih fun y hy => h y (List.mem_cons_of_mem x hy))

theorem classify_one_equiv (kill : Nat → KillResult) (pathExists : String → Bool)
    (k : String) {p₁ p₂ : Option PidRow} {l₁ l₂ : Option LockRow}
    (hp : Option.Rel pidRowEquiv p₁ p₂) (hl : Option.Rel lockRowEquiv l₁ l₂) :
    recordEquiv (classify_one kill pathExists k p₁ l₁) (classify_one kill pathExists k p₂ l₂) := by
  have hpid_eq : ∀ (f : PidRow → String), (∀ a b, pidRowEquiv a b → f a = f b) →
      pidField p₁ f = pidField p₂ f := by
    intro f hf
    cases hp with
    | none => rfl
    | some hab => exact hf _ _ hab
  have hlock_eq : ∀ (f : LockRow → String), (∀ a b, lockRowEquiv a b → f a = f b) →
      lockField l₁ f = lockField l₂ f := by
    intro f hf
    cases hl with
    | none => rfl
    | some hab => exact hf _ _ hab
  have howner_p : ownerEquivStr (pidField p₁ PidRow.owner) (pidField p₂ PidRow.owner) := by
    cases hp with
    | none => exact ownerEquivStr_refl ""
    | some hab => exact hab.2.2.1
  have howner_l : ownerEquivStr (lockField l₁ LockRow.owner) (lockField l₂ LockRow.owner) := by
    cases hl with
    | none => exact ownerEquivStr_refl ""
    | some hab => exact hab.2.2.1
  have htask : pidField p₁ PidRow.task_id = pidField p₂ PidRow.task_id :=
    hpid_eq _ (fun a b h => h.2.1)
  have hscope : pidField p₁ PidRow.scope = pidField p₂ PidRow.scope :=
    hpid_eq _ (fun a b h => h.2.2.2.1)
  have hpidv : pidField p₁ PidRow.pid = pidField p₂ PidRow.pid :=
    hpid_eq _ (fun a b h => h.2.2.2.2.1)
  have hpf : pidField p₁ PidRow.pid_file = pidField p₂ PidRow.pid_file :=
    hpid_eq _ (fun a b h => h.2.2.2.2.2.1)
  have hwt : pidField p₁ PidRow.worktree = pidField p₂ PidRow.worktree :=
    hpid_eq _ (fun a b h => h.2.2.2.2.2.2.1)
  have htmux : pidField p₁ PidRow.tmux_session = pidField p₂ PidRow.tmux_session :=
    hpid_eq _ (fun a b h => h.2.2.2.2.2.2.2.1)
  have hlb : pidField p₁ PidRow.launch_backend = pidField p₂ PidRow.launch_backend :=
    hpid_eq _ (fun a b h => h.2.2.2.2.2.2.2.2.1)
  have hlog : pidField p₁ PidRow.log_file = pidField p₂ PidRow.log_file :=
    hpid_eq _ (fun a b h => h.2.2.2.2.2.2.2.2.2)
  have hltask : lockField l₁ LockRow.task_id = lockField l₂ LockRow.task_id :=
    hlock_eq _ (fun a b h => h.2.1)
  have hlscope : lockField l₁ LockRow.scope = lockField l₂ LockRow.scope :=
    hlock_eq _ (fun a b h => h.2.2.2.1)
  have hlf : lockField l₁ LockRow.lock_file = lockField l₂ LockRow.lock_file :=
    hlock_eq _ (fun a b h => h.2.2.2.2.1)
  have hlwt : lockField l₁ LockRow.worktree = lockField l₂ LockRow.worktree :=
    hlock_eq _ (fun a b h => h.2.2.2.2.2)
  unfold classify_one recordEquiv
  simp only
  refine ⟨trivial, ?_, ?_, ?_, ?_, ?_, ?_, ?_, ?_, ?_, ?_, ?_, ?_, ?_, ?_⟩
  · rw [htask, hltask]
  · exact pyOr_ownerEquiv howner_p (pyOr_ownerEquiv howner_l (ownerEquivStr_refl ""))
  · rw [hscope, hlscope]
  · rw [hpf, hlf, hwt, hlwt, hpidv]
  · rw [hpidv]
  · rw [hpf, hpidv]
  · rw [hpf]
  · rw [hlf]
  · rw [hwt, hlwt]
  · rw [htmux]
  · rw [hlb]
  · rw [hlog]
  · rw [hwt, hlwt]
  · rw [hpf, hlf, hwt, hlwt, hpidv]

theorem classify_records_equiv (kill : Nat → KillResult) (pathExists : String → Bool)
    {pidRows₁ pidRows₂ : List PidRow} {lockRows₁ lockRows₂ : List LockRow}
    (hp : List.Forall₂ pidRowEquiv pidRows₁ pidRows₂)
    (hl : List.Forall₂ lockRowEquiv lockRows₁ lockRows₂) :
    List.Forall₂ recordEquiv (classify_records kill pathExists pidRows₁ lockRows₁)
      (classify_records kill pathExists pidRows₂ lockRows₂) := by
  have hkeys : recordKeys pidRows₁ lockRows₁ = recordKeys pidRows₂ lockRows₂ := by
    unfold recordKeys
    rw [forall₂_map_eq hp PidRow.key (fun a b h => h.1),
      forall₂_map_eq hl LockRow.key (fun a b h => h.1)]
  unfold classify_records
  rw [hkeys]
  apply forall₂_map_map
  intro k _
  refine classify_one_equiv kill pathExists k ?_ ?_
  · exact forall₂_getLast?_rel (forall₂_filter hp _ (fun a b h => by simp [h.1]))
  · exact forall₂_getLast?_rel (forall₂_filter hl _ (fun a b h => by simp [h.1]))

theorem bool_eq_of_iff {a b : Bool} (h : (a = true) ↔ (b = true)) : a = b := by
  cases a <;> cases b <;> simp_all

theorem activeRowsFor_equiv {records₁ records₂ : List WorkerRecord}
    (h : List.Forall₂ recordEquiv records₁ records₂) (tid : String) :
    List.Forall₂ recordEquiv (activeRowsFor records₁ tid) (activeRowsFor records₂ tid) := by
  refine forall₂_filter h _ (fun a b hab => ?_)
  obtain ⟨h1, h2, h3, h4, h5, hrest⟩ := hab
  simp [h2, isActiveRow, h5]

theorem active_signal_fun_eq {records₁ records₂ : List WorkerRecord}
    (h : List.Forall₂ recordEquiv records₁ records₂) :
    (fun tid => assocGet (active_maps records₁).active_by_task tid) =
      (fun tid => assocGet (active_maps records₂).active_by_task tid) := by
  funext tid
  rw [active_maps_by_task, active_maps_by_task]
  have hrows := activeRowsFor_equiv h tid
  rw [forall₂_any_eq hrows (fun r => r.pid_alive)
      (fun a b hab => hab.2.2.2.2.2.2.1),
    forall₂_any_eq hrows (fun r => optTruthy r.lock_file)
      (fun a b hab => by
        show optTruthy a.lock_file = optTruthy b.lock_file
        rw [hab.2.2.2.2.2.2.2.2.1])]

theorem active_conflict_fun_eq {records₁ records₂ : List WorkerRecord}
    (h : List.Forall₂ recordEquiv records₁ records₂) :
    (fun tid => (assocGet (active_maps records₁).conflict_by_task tid).isSome) =
      (fun tid => (assocGet (active_maps records₂).conflict_by_task tid).isSome) := by
  funext tid
  have hrows := activeRowsFor_equiv h tid
  refine bool_eq_of_iff ?_
  rw [active_maps_conflict, active_maps_conflict]
  unfold ConflictCond
  rw [List.Forall₂.length_eq hrows,
    forall₂_any_eq hrows (fun r => optTruthy r.lock_file)
      (fun a b hab => by
        show optTruthy a.lock_file = optTruthy b.lock_file
        rw [hab.2.2.2.2.2.2.2.2.1]),
    forall₂_any_eq hrows (fun r => r.pid_alive)
      (fun a b hab => hab.2.2.2.2.2.2.1)]

theorem active_busy_fun_eq {records₁ records₂ : List WorkerRecord}
    (h : List.Forall₂ recordEquiv records₁ records₂) :
    (fun k => (active_maps records₁).active_owner_keys.contains k) =
      (fun k => (active_maps records₂).active_owner_keys.contains k) := by
  funext k
  refine bool_eq_of_iff ?_
  rw [active_maps_owner_keys, active_maps_owner_keys]
  refine forall₂_exists_iff h _ (fun a b hab => ?_)
  obtain ⟨h1, h2, h3, h4, h5, hrest⟩ := hab
  rw [isActiveRow, isActiveRow, h2, h5, h3.1]
  constructor
  · rintro ⟨x1, x2, x3⟩
    exact ⟨x1, fun hc => x2 (h3.2.mpr hc), x3⟩
  · rintro ⟨x1, x2, x3⟩
    exact ⟨x1, fun hc => x2 (h3.2.mp hc), x3⟩

theorem build_indexes_eq {tasks₁ tasks₂ : List BoardTask}
    (h : List.Forall₂ taskEquiv tasks₁ tasks₂) :
    build_indexes tasks₁ = build_indexes tasks₂ := by
  funext k
  unfold build_indexes
  exact optionRel_map_eq
    (forall₂_getLast?_rel (forall₂_filter h _ (fun a b hab => by simp [hab.1])))
    BoardTask.status (fun a b hab => hab.2.2.2.2)

/-- Correspondence of loop verdicts across owner-equivalent tasks. -/
def stepEquiv : StepOutcome → StepOutcome → Prop
  | StepOutcome.skip, StepOutcome.skip => True
  | StepOutcome.exclude e₁, StepOutcome.exclude e₂ => scrubExcluded e₁ = scrubExcluded e₂
  | StepOutcome.ready e₁ k₁, StepOutcome.ready e₂ k₂ =>
    scrubReady e₁ = scrubReady e₂ ∧ k₁ = k₂
  | _, _ => False

theorem ready_step_equiv (ownersByKey : String → Option String) (specEval : String → SpecInfo)
    (taskStatus gates : String → Option String)
    (conflict : String → Bool) (signal : String → Option Signal)
    (busy : String → Bool) (sched : List String) {t₁ t₂ : BoardTask}
    (h : taskEquiv t₁ t₂) :
    stepEquiv (ready_step ownersByKey specEval taskStatus gates conflict signal busy sched t₁)
      (ready_step ownersByKey specEval taskStatus gates conflict signal busy sched t₂) := by
  obtain ⟨hid, htitle, hown, hdeps, hstat⟩ := h
  simp only [ready_step]
  rw [← hid, ← hstat, ← hdeps, ← hown.1]
  by_cases h1 : t₁.status ≠ "TODO"
  · rw [if_pos h1, if_pos h1]
    trivial
  · rw [if_neg h1, if_neg h1]
    by_cases h2 : (ownersByKey (owner_key t₁.owner)).getD "" = ""
    · rw [if_pos h2, if_pos h2]
      trivial
    · rw [if_neg h2, if_neg h2]
      by_cases h3 : conflict t₁.id = true
      · rw [if_pos h3, if_pos h3]
        simp [stepEquiv, mkExcluded, scrubExcluded, hid, htitle, hdeps, hstat]
      · rw [if_neg h3, if_neg h3]
        cases hsig : signal t₁.id with
        | some sig =>
          simp only [hsig]
          simp [stepEquiv, mkExcluded, scrubExcluded, hid, htitle, hdeps, hstat]
        | none =>
          simp only [hsig]
          by_cases h4 : (busy (owner_key t₁.owner) ||
              sched.contains (owner_key t₁.owner)) = true
          · rw [if_pos h4, if_pos h4]
            simp [stepEquiv, mkExcluded, scrubExcluded, hid, htitle, hdeps, hstat]
          · rw [if_neg h4, if_neg h4]
            by_cases h5 : (!(specEval t₁.id).specExists) = true
            · rw [if_pos h5, if_pos h5]
              simp [stepEquiv, mkExcluded, scrubExcluded, hid, htitle, hdeps, hstat]
            · rw [if_neg h5, if_neg h5]
              by_cases h6 : (!(specEval t₁.id).valid) = true
              · rw [if_pos h6, if_pos h6]
                simp [stepEquiv, mkExcluded, scrubExcluded, hid, htitle, hdeps, hstat]
              · rw [if_neg h6, if_neg h6]
                by_cases h7 : (!deps_ready t₁.deps taskStatus gates) = true
                · rw [if_pos h7, if_pos h7]
                  simp [stepEquiv, mkExcluded, scrubExcluded, hid, htitle, hdeps, hstat]
                · rw [if_neg h7, if_neg h7]
                  exact ⟨by simp [mkReady, scrubReady, hid, htitle, hdeps, hstat], rfl⟩

theorem ready_loop_scrub (ownersByKey : String → Option String) (specEval : String → SpecInfo)
    (taskStatus gates : String → Option String)
    (conflict : String → Bool) (signal : String → Option Signal)
    (busy : String → Bool) (maxStart : Int)
    {tasks₁ tasks₂ : List BoardTask} (ht : List.Forall₂ taskEquiv tasks₁ tasks₂) :
    ∀ (ready₁ ready₂ : List ReadyEntry) (excluded₁ excluded₂ : List ExcludedEntry)
      (sched : List String),
      ready₁.map scrubReady = ready₂.map scrubReady →
      excluded₁.map scrubExcluded = excluded₂.map scrubExcluded →
      ((ready_loop ownersByKey specEval taskStatus gates conflict signal busy maxStart
          tasks₁ ready₁ excluded₁ sched).1.map scrubReady =
        (ready_loop ownersByKey specEval taskStatus gates conflict signal busy maxStart
          tasks₂ ready₂ excluded₂ sched).1.map scrubReady) ∧
      ((ready_loop ownersByKey specEval taskStatus gates conflict signal busy maxStart
          tasks₁ ready₁ excluded₁ sched).2.map scrubExcluded =
        (ready_loop ownersByKey specEval taskStatus gates conflict signal busy maxStart
          tasks₂ ready₂ excluded₂ sched).2.map scrubExcluded) := by
  induction ht with
  | nil =>
    intro ready₁ ready₂ excluded₁ excluded₂ sched hr he
    exact ⟨hr, he⟩
  | cons hteq hrest ih =>
    rename_i t₁ t₂ ts₁ ts₂
    intro ready₁ ready₂ excluded₁ excluded₂ sched hr he
    have hse := ready_step_equiv ownersByKey specEval taskStatus gates conflict signal busy
      sched hteq
    cases h₁ : ready_step ownersByKey specEval taskStatus gates conflict signal busy
        sched t₁ with
    | skip =>
      cases h₂ : ready_step ownersByKey specEval taskStatus gates conflict signal busy
          sched t₂ with
      | skip =>
        simp only [ready_loop, h₁, h₂]
        exact ih _ _ _ _ _ hr he
      | exclude e₂ =>
        rw [h₁, h₂] at hse
        exact hse.elim
      | ready e₂ k₂ =>
        rw [h₁, h₂] at hse
        exact hse.elim
    | exclude e₁ =>
      cases h₂ : ready_step ownersByKey specEval taskStatus gates conflict signal busy
          sched t₂ with
      | skip =>
        rw [h₁, h₂] at hse
        exact hse.elim
      | exclude e₂ =>
        rw [h₁, h₂] at hse
        simp only [ready_loop, h₁, h₂]
        refine ih _ _ _ _ _ hr ?_
        rw [List.map_append, List.map_append, he]
        simp only [List.map_cons, List.map_nil]
        rw [show scrubExcluded e₁ = scrubExcluded e₂ from hse]
      | ready e₂ k₂ =>
        rw [h₁, h₂] at hse
        exact hse.elim
    | ready e₁ k₁ =>
      cases h₂ : ready_step ownersByKey specEval taskStatus gates conflict signal busy
          sched t₂ with
      | skip =>
        rw [h₁, h₂] at hse
        exact hse.elim
      | exclude e₂ =>
        rw [h₁, h₂] at hse
        exact hse.elim
      | ready e₂ k₂ =>
        rw [h₁, h₂] at hse
        obtain ⟨hee, hkk⟩ := hse
        have hlen : ready₁.length = ready₂.length := by
          have := congrArg List.length hr
          simpa using this
        have hmap2 : (ready₁ ++ [e₁]).map scrubReady = (ready₂ ++ [e₂]).map scrubReady := by
          rw [List.map_append, List.map_append, hr]
          simp only [List.map_cons, List.map_nil]
          rw [hee]
        simp only [ready_loop, h₁, h₂]
        by_cases hbrk : 0 < maxStart ∧ maxStart ≤ (((ready₁ ++ [e₁]).length : Int))
        · have hbrk₂ : 0 < maxStart ∧ maxStart ≤ (((ready₂ ++ [e₂]).length : Int)) := by
            refine ⟨hbrk.1, ?_⟩
            have := hbrk.2
            simp only [List.length_append, List.length_cons, List.length_nil] at this ⊢
            omega
          rw [if_pos hbrk, if_pos hbrk₂]
          exact ⟨hmap2, he⟩
        · have hbrk₂ : ¬ (0 < maxStart ∧ maxStart ≤ (((ready₂ ++ [e₂]).length : Int))) := by
            intro hc
            refine hbrk ⟨hc.1, ?_⟩
            have := hc.2
            simp only [List.length_append, List.length_cons, List.length_nil] at this ⊢
            omega
          rw [if_neg hbrk, if_neg hbrk₂, hkk]
          exact ih _ _ _ _ _ hmap2 he

/-- The three `_active_maps`-derived collaborators of the per-task loop,
as `_ready_payload` builds them from the reconciled records. -/
def conflictFun (records : List WorkerRecord) : String → Bool :=
  fun tid => (assocGet (active_maps records).conflict_by_task tid).isSome

def signalFun (records : List WorkerRecord) : String → Option Signal :=
  fun tid => assocGet (active_maps records).active_by_task tid

def busyFun (records : List WorkerRecord) : String → Bool :=
  fun k => (active_maps records).active_owner_keys.contains k

/-- C10.  Owner-key invariance, in the form the code supports: the
scheduler's decisions are unchanged when every owner string on the board
or in a worker inventory row is replaced by one with the same
`owner_key` AND the same emptiness (the raw owner string's truthiness is
also consulted, by the `if owner:` guard of `_active_maps`), with the
display copies of the owner names scrubbed from the compared outputs;
and in any single run no two READY rows share an owner key. -/
theorem scheduler_owner_key_invariance
    (kill : Nat → KillResult) (pathExists : String → Bool)
    (gates ownersByKey : String → Option String) (maxStart : Int)
    (specEval : String → SpecInfo)
    {tasks₁ tasks₂ : List BoardTask} {pidRows₁ pidRows₂ : List PidRow}
    {lockRows₁ lockRows₂ : List LockRow}
    (ht : List.Forall₂ taskEquiv tasks₁ tasks₂)
    (hp : List.Forall₂ pidRowEquiv pidRows₁ pidRows₂)
    (hl : List.Forall₂ lockRowEquiv lockRows₁ lockRows₂) :
    ((ready_payload kill pathExists tasks₁ gates ownersByKey maxStart specEval
        pidRows₁ lockRows₁).ready_tasks.map scrubReady =
      (ready_payload kill pathExists tasks₂ gates ownersByKey maxStart specEval
        pidRows₂ lockRows₂).ready_tasks.map scrubReady) ∧
    ((ready_payload kill pathExists tasks₁ gates ownersByKey maxStart specEval
        pidRows₁ lockRows₁).excluded_tasks.map scrubExcluded =
      (ready_payload kill pathExists tasks₂ gates ownersByKey maxStart specEval
        pidRows₂ lockRows₂).excluded_tasks.map scrubExcluded) ∧
    ((ready_payload kill pathExists tasks₁ gates ownersByKey maxStart specEval
        pidRows₁ lockRows₁).running_locks.map scrubLock =
      (ready_payload kill pathExists tasks₂ gates ownersByKey maxStart specEval
        pidRows₂ lockRows₂).running_locks.map scrubLock) ∧
    ((ready_payload kill pathExists tasks₁ gates ownersByKey maxStart specEval
        pidRows₁ lockRows₁).ready_tasks.Pairwise
      (fun a b => owner_key a.owner ≠ owner_key b.owner)) := by
  have hrec := classify_records_equiv kill pathExists hp hl
  have hconf : conflictFun (classify_records kill pathExists pidRows₁ lockRows₁) =
      conflictFun (classify_records kill pathExists pidRows₂ lockRows₂) :=
    active_conflict_fun_eq hrec
  have hsig : signalFun (classify_records kill pathExists pidRows₁ lockRows₁) =
      signalFun (classify_records kill pathExists pidRows₂ lockRows₂) :=
    active_signal_fun_eq hrec
  have hbusy : busyFun (classify_records kill pathExists pidRows₁ lockRows₁) =
      busyFun (classify_records kill pathExists pidRows₂ lockRows₂) :=
    active_busy_fun_eq hrec
  have hts := build_indexes_eq ht
  have hr1 : (ready_payload kill pathExists tasks₁ gates ownersByKey maxStart specEval
      pidRows₁ lockRows₁).ready_tasks =
      (ready_loop ownersByKey specEval (build_indexes tasks₁) gates
        (conflictFun (classify_records kill pathExists pidRows₁ lockRows₁))
        (signalFun (classify_records kill pathExists pidRows₁ lockRows₁))
        (busyFun (classify_records kill pathExists pidRows₁ lockRows₁))
        maxStart tasks₁ [] [] []).1 := rfl
  have hr2 : (ready_payload kill pathExists tasks₂ gates ownersByKey maxStart specEval
      pidRows₂ lockRows₂).ready_tasks =
      (ready_loop ownersByKey specEval (build_indexes tasks₂) gates
        (conflictFun (classify_records kill pathExists pidRows₂ lockRows₂))
        (signalFun (classify_records kill pathExists pidRows₂ lockRows₂))
        (busyFun (classify_records kill pathExists pidRows₂ lockRows₂))
        maxStart tasks₂ [] [] []).1 := rfl
  have he1 : (ready_payload kill pathExists tasks₁ gates ownersByKey maxStart specEval
      pidRows₁ lockRows₁).excluded_tasks =
      (ready_loop ownersByKey specEval (build_indexes tasks₁) gates
        (conflictFun (classify_records kill pathExists pidRows₁ lockRows₁))
        (signalFun (classify_records kill pathExists pidRows₁ lockRows₁))
        (busyFun (classify_records kill pathExists pidRows₁ lockRows₁))
        maxStart tasks₁ [] [] []).2 := rfl
  have he2 : (ready_payload kill pathExists tasks₂ gates ownersByKey maxStart specEval
      pidRows₂ lockRows₂).excluded_tasks =
      (ready_loop ownersByKey specEval (build_indexes tasks₂) gates
        (conflictFun (classify_records kill pathExists pidRows₂ lockRows₂))
        (signalFun (classify_records kill pathExists pidRows₂ lockRows₂))
        (busyFun (classify_records kill pathExists pidRows₂ lockRows₂))
        maxStart tasks₂ [] [] []).2 := rfl
  have hloop := ready_loop_scrub ownersByKey specEval (build_indexes tasks₁) gates
    (conflictFun (classify_records kill pathExists pidRows₁ lockRows₁))
    (signalFun (classify_records kill pathExists pidRows₁ lockRows₁))
    (busyFun (classify_records kill pathExists pidRows₁ lockRows₁))
    maxStart ht [] [] [] [] [] rfl rfl
  refine ⟨?_, ?_, ?_, ?_⟩
  · rw [hr1, hr2, ← hts, ← hconf, ← hsig, ← hbusy]
    exact hloop.1
  · rw [he1, he2, ← hts, ← hconf, ← hsig, ← hbusy]
    exact hloop.2
  · show (lockRows₁.map (fun l =>
        ({ task_id := l.task_id, owner := l.owner, scope := l.scope } : LockView))).map
          scrubLock =
      (lockRows₂.map (fun l =>
        ({ task_id := l.task_id, owner := l.owner, scope := l.scope } : LockView))).map
          scrubLock
    rw [List.map_map, List.map_map]
    refine forall₂_map_eq hl _ (fun a b hab => ?_)
    simp only [Function.comp, scrubLock]
    rw [hab.2.1, hab.2.2.2.1]
  · rw [hr1]
    refine ready_loop_ready_pairwise ownersByKey specEval (build_indexes tasks₁) gates
      (conflictFun (classify_records kill pathExists pidRows₁ lockRows₁))
      (signalFun (classify_records kill pathExists pidRows₁ lockRows₁))
      (busyFun (classify_records kill pathExists pidRows₁ lockRows₁))
      maxStart tasks₁ [] [] [] ?_ ?_
    · intro en hen
      exact absurd hen (List.not_mem_nil en)
    · exact List.Pairwise.nil

/-- An owner mapping whose only scoped key is the empty owner key. -/
def ownersDash : String → Option String := fun k => if k = "" then some "shared" else none

/-- A TODO task whose owner string "-" normalizes to the empty owner
key. -/
def taskDash : BoardTask := ⟨"T1-001", "first", "-", "-", "TODO"⟩

/-- A lock-only inventory row for an unrelated task with an EMPTY owner
string. -/
def lockRowEmptyOwner : LockRow :=
  { key := "K9", task_id := "T9-999", owner := "", scope := "shared"
    lock_file := "l9.lock", worktree := "" }

/-- The same row with owner "--": same `owner_key` (both normalize to
""), but now truthy. -/
def lockRowDashOwner : LockRow :=
  { key := "K9", task_id := "T9-999", owner := "--", scope := "shared"
    lock_file := "l9.lock", worktree := "" }

/-- C10 counterexample: replacing the lock row's owner "" by "--" keeps
`owner_key` (both are "") yet changes the scheduler's decisions beyond
the display copies: the board task is READY in the first run and is
dropped from READY (excluded owner_busy) in the second, because the
`if owner:` guard of `_active_maps` consults the raw owner string's
truthiness before registering the owner key as busy. -/
theorem scheduler_owner_key_counterexample :
    owner_key lockRowEmptyOwner.owner = owner_key lockRowDashOwner.owner ∧
    lockRowDashOwner = { lockRowEmptyOwner with owner := "--" } ∧
    (ready_payload killAllOk fsAllExists [taskDash] gatesEmpty ownersDash 0 specAllOk
      [] [lockRowEmptyOwner]).ready_tasks.length = 1 ∧
    (ready_payload killAllOk fsAllExists [taskDash] gatesEmpty ownersDash 0 specAllOk
      [] [lockRowDashOwner]).ready_tasks.length = 0 := by decide

/-- `taskA1` with its owner respelled "agent-a" (same owner key, both
nonempty). -/
def taskA1v : BoardTask := ⟨"T1-001", "first", "agent-a", "-", "TODO"⟩

/-- `lockRowA1` with its owner respelled "Agent A" (same owner key,
both nonempty). -/
def lockRowA1v : LockRow :=
  { key := "T1-001", task_id := "T1-001", owner := "Agent A", scope := "app"
    lock_file := "l1.lock", worktree := "" }

theorem scheduler_owner_key_invariance_witness :
    ((ready_payload killAllOk fsAllExists [taskA1] gatesEmpty ownersAB 0 specAllOk
        [] [lockRowA1]).ready_tasks.map scrubReady =
      (ready_payload killAllOk fsAllExists [taskA1v] gatesEmpty ownersAB 0 specAllOk
        [] [lockRowA1v]).ready_tasks.map scrubReady) ∧
    ((ready_payload killAllOk fsAllExists [taskA1] gatesEmpty ownersAB 0 specAllOk
        [] [lockRowA1]).excluded_tasks.map scrubExcluded =
      (ready_payload killAllOk fsAllExists [taskA1v] gatesEmpty ownersAB 0 specAllOk
        [] [lockRowA1v]).excluded_tasks.map scrubExcluded) ∧
    ((ready_payload killAllOk fsAllExists [taskA1] gatesEmpty ownersAB 0 specAllOk
        [] [lockRowA1]).running_locks.map scrubLock =
      (ready_payload killAllOk fsAllExists [taskA1v] gatesEmpty ownersAB 0 specAllOk
        [] [lockRowA1v]).running_locks.map scrubLock) ∧
    ((ready_payload killAllOk fsAllExists [taskA1] gatesEmpty ownersAB 0 specAllOk
        [] [lockRowA1]).ready_tasks.Pairwise
      (fun a b => owner_key a.owner ≠ owner_key b.owner)) :=
  scheduler_owner_key_invariance killAllOk fsAllExists gatesEmpty ownersAB 0 specAllOk
    (List.Forall₂.cons ⟨rfl, rfl, ⟨by decide, by decide⟩, rfl, rfl⟩ List.Forall₂.nil)
    List.Forall₂.nil
    (List.Forall₂.cons ⟨rfl, rfl, ⟨by decide, by decide⟩, rfl, rfl, rfl⟩ List.Forall₂.nil)

/-! ## session_parser.py

Shallow embedding of the session-capture normalizer.  `json.loads` is
an oracle `jsonLoads : String → Option PyVal` (returning `none` for a
`JSONDecodeError`), and the per-event block extractor
`_event_to_blocks` is a function parameter `eventToBlocks`, so every
theorem below holds for all behaviours of both.  Strings are handled at
the character-list level so the definitions evaluate inside the
kernel. -/

/-- The backquote character (avoids a code-fence delimiter literal). -/
def backquote : Char := Char.ofNat 96

/-- The opening-brace character. -/
def lbraceChar : Char := Char.ofNat 123

/-- The escape character heading every ANSI sequence. -/
def escChar : Char := '\x1B'

/-- Second character of a two-character ANSI escape: the class
`[@-Z\\-_]` of `ANSI_ESCAPE_RE` (codes 0x40-0x5A and 0x5C-0x5F; `[`
itself, 0x5B, is excluded and starts the CSI alternative). -/
def isEscSingleChar (c : Char) : Bool :=
  (0x40 ≤ c.toNat && c.toNat ≤ 0x5A) || (0x5C ≤ c.toNat && c.toNat ≤ 0x5F)

/-- CSI parameter bytes `[0-?]` (0x30-0x3F). -/
def isCsiParamChar (c : Char) : Bool := 0x30 ≤ c.toNat && c.toNat ≤ 0x3F

/-- CSI intermediate bytes (0x20-0x2F). -/
def isCsiInterChar (c : Char) : Bool := 0x20 ≤ c.toNat && c.toNat ≤ 0x2F

/-- CSI final bytes `[@-~]` (0x40-0x7E). -/
def isCsiFinalChar (c : Char) : Bool := 0x40 ≤ c.toNat && c.toNat ≤ 0x7E

/-- After an `ESC`, try to match the rest of `ANSI_ESCAPE_RE` (a
single byte of the first class, or a CSI run: `[`, parameter bytes,
intermediate bytes, one final byte); on success return the remainder
of the input. -/
def skipAnsiSeq : List Char → Option (List Char)
  | [] => none
  | c :: rest =>
    if isEscSingleChar c then some rest
    else if c = '[' then
      let r1 := rest.dropWhile isCsiParamChar
      let r2 := r1.dropWhile isCsiInterChar
      match r2 with
      | f :: r3 => if isCsiFinalChar f then some r3 else none
      | [] => none
    else none

/-- `ANSI_ESCAPE_RE.sub("", ·)`: left-to-right scan removing each
match; an `ESC` that starts no match is kept.  `fuel` bounds the
recursion (each step consumes at least one character, so the input
length suffices) and keeps the definition kernel-reducible. -/
def stripAnsiGo : Nat → List Char → List Char
  | 0, cs => cs
  | _ + 1, [] => []
  | fuel + 1, c :: rest =>
    if c = escChar then
      match skipAnsiSeq rest with
      | some r => stripAnsiGo fuel r
      | none => c :: stripAnsiGo fuel rest
    else c :: stripAnsiGo fuel rest

/-- `strip_ansi` from session_parser.py: drop `\r`, then erase ANSI
escape sequences. -/
def strip_ansi (text : String) : String :=
  let noCr := text.data.filter (fun c => ¬ (c = '\r'))
  ⟨stripAnsiGo noCr.length noCr⟩

/-- The line boundaries of Python `str.splitlines()`. -/
def pyIsLineBreakChar (c : Char) : Bool :=
  c = '\n' || c = '\r' || c = '\x0b' || c = '\x0c' ||
    c = '\x1c' || c = '\x1d' || c = '\x1e' || c.toNat = 0x85 ||
    c.toNat = 0x2028 || c.toNat = 0x2029

/-- Worker for `pySplitlines`; `acc` holds the current line reversed.
`\r\n` counts as one boundary; no empty trailing line is produced. -/
def splitLinesAux : List Char → List Char → List String
  | [], acc => if acc = [] then [] else [⟨acc.reverse⟩]
  | '\r' :: '\n' :: rest, acc => ⟨acc.reverse⟩ :: splitLinesAux rest []
  | c :: rest, acc =>
    if pyIsLineBreakChar c then ⟨acc.reverse⟩ :: splitLinesAux rest []
    else splitLinesAux rest (c :: acc)

/-- Python `str.splitlines()`. -/
def pySplitlines (s : String) : List String := splitLinesAux s.data []

/-- `_truncate` from session_parser.py (`MAX_PREVIEW_CHARS = 1200`). -/
def truncate (text : String) : String :=
  if text.data.length ≤ 1200 then text else ⟨text.data.take 1200⟩ ++ "..."

/-- `_normalize_fragment`: strip ANSI and surrounding whitespace. -/
def normalize_fragment (text : String) : String :=
  let cleaned := pyStrip (strip_ansi text)
  if cleaned = "" then "" else cleaned

/-- List-prefix test used by the substring operator. -/
def isPrefixList : List Char → List Char → Bool
  | [], _ => true
  | _ :: _, [] => false
  | a :: as, b :: bs => a = b && isPrefixList as bs

/-- Worker for `isSubstring`. -/
def isSubstringAux (n : List Char) : List Char → Bool
  | [] => isPrefixList n []
  | c :: rest => isPrefixList n (c :: rest) || isSubstringAux n rest

/-- Python `needle in hay` on strings. -/
def isSubstring (needle hay : String) : Bool := isSubstringAux needle.data hay.data

/-- Python `str.lower()` (the data at hand is ASCII). -/
def pyLower (s : String) : String := ⟨s.data.map Char.toLower⟩

/-- Python `l[i:]` for an `int` index `i` (negative counts from the
end, clamped at the list bounds). -/
def pySliceFrom {α : Type} (i : Int) (l : List α) : List α :=
  if i < 0 then l.drop (((l.length : Int) + i).toNat) else l.drop i.toNat

/-- `"\n".join`. -/
def joinNL : List String → String
  | [] => ""
  | [s] => s
  | s :: rest => s ++ "\n" ++ joinNL rest

/-- A JSON value as `json.loads` returns it (`str`, `int`, `bool`,
`None`, `list`, `dict`).  Floats do not occur in the verified
fixtures. -/
inductive PyVal where
  | pstr (s : String)
  | pint (n : Int)
  | pbool (b : Bool)
  | pnone
  | plist (xs : List PyVal)
  | pdict (xs : List (String × PyVal))

/-- `isinstance(v, dict)`. -/
def PyVal.isDict : PyVal → Bool
  | .pdict _ => true
  | _ => false

/-- `d.get(k)` on a dict value (and `None` on anything else). -/
def dictGet : PyVal → String → Option PyVal
  | .pdict xs, k => assocGet xs k
  | _, _ => none

/-- Python truthiness of a JSON value. -/
def pyvalTruthy : PyVal → Bool
  | .pstr s => s ≠ ""
  | .pint n => n ≠ 0
  | .pbool b => b
  | .pnone => false
  | .plist xs => !xs.isEmpty
  | .pdict xs => !xs.isEmpty

/-- Python `a or b` on JSON values. -/
def pyvalOr (a b : PyVal) : PyVal := if pyvalTruthy a then a else b

/-- Python `str(v)`.  Exact on the scalar values the verified paths
feed it; the container rendering is abbreviated (no verified property
depends on it: the claims' events carry string-typed fields there). -/
def pyvalStr : PyVal → String
  | .pstr s => s
  | .pint n => toString n
  | .pbool true => "True"
  | .pbool false => "False"
  | .pnone => "None"
  | .plist _ => "[...]"
  | .pdict _ => "{...}"

/-- The `SessionBlock` dataclass of session_parser.py. -/
structure SessionBlock where
  kind : String
  label : String
  body : String
  event_type : String := ""
  timestamp : String := ""
  item_type : String := ""
  role : String := ""
  item_id : String := ""
  item_status : String := ""
deriving DecidableEq, Repr, Inhabited

/-- The `SessionView` dataclass of session_parser.py. -/
structure SessionView where
  source : String
  parsed_events : Nat
  blocks : List SessionBlock
deriving DecidableEq, Repr, Inhabited

/-- `event.get(k)` with Python's `None` for a missing key. -/
def pyGet (e : PyVal) (k : String) : PyVal := (dictGet e k).getD .pnone

/-- `_event_type`: `str(event.get("type") or event.get("event") or
"").strip().lower()`. -/
def event_type_of (event : PyVal) : String :=
  pyLower (pyStrip (pyvalStr (pyvalOr (pyvalOr (pyGet event "type") (pyGet event "event"))
    (.pstr ""))))

/-- `_pick_nested`: walk a key path, `None` as soon as the current
value is not a dict. -/
def pick_nested (e : PyVal) (path : List String) : PyVal :=
  path.foldl (fun cur k => (dictGet cur k).getD .pnone) e

/-- `_first_nonempty`: the first argument that is a string with
nonblank content, stripped. -/
def first_nonempty : List PyVal → String
  | [] => ""
  | .pstr s :: rest => if pyStrip s = "" then first_nonempty rest else pyStrip s
  | _ :: rest => first_nonempty rest

/-- `_event_timestamp`. -/
def event_timestamp (e : PyVal) : String :=
  first_nonempty [pyGet e "timestamp", pyGet e "time", pyGet e "created_at", pyGet e "ts",
    pick_nested e ["response", "created_at"]]

/-- `_stream_id_from_event`. -/
def stream_id_from_event (e : PyVal) : String :=
  first_nonempty [pyGet e "item_id", pyGet e "output_item_id", pyGet e "call_id",
    pyGet e "tool_call_id", pick_nested e ["item", "id"], pick_nested e ["delta", "id"]]

/-- `_iter_json_objects`: per line, strip, keep lines opening a brace,
parse, keep dict results. -/
def iter_json_objects (jsonLoads : String → Option PyVal) (text : String) : List PyVal :=
  (pySplitlines text).filterMap (fun rawLine =>
    let line := pyStrip rawLine
    match line.data with
    | c :: _ =>
      if c = lbraceChar then
        match jsonLoads line with
        | some item => if item.isDict then some item else none
        | none => none
      else none
    | [] => none)

/-- The lazy close of a code fence: the earliest triple backquote,
returning the text before it and the remainder after it. -/
def findFenceClose : List Char → Option (List Char × List Char)
  | c₁ :: c₂ :: c₃ :: rest =>
    if c₁ = backquote && c₂ = backquote && c₃ = backquote then some ([], rest)
    else
      match findFenceClose (c₂ :: c₃ :: rest) with
      | some (b, r) => some (c₁ :: b, r)
      | none => none
  | _ => none

/-- Try to match `CODE_FENCE_RE` at the head of the input: a triple
backquote, an info line without newline or backquote, a newline, then
the lazily closed body.  Returns (info, body, remainder). -/
def tryFenceAt : List Char → Option (List Char × List Char × List Char)
  | c₁ :: c₂ :: c₃ :: rest =>
    if c₁ = backquote && c₂ = backquote && c₃ = backquote then
      let info := rest.takeWhile (fun c => !(c = '\n' || c = backquote))
      let after := rest.dropWhile (fun c => !(c = '\n' || c = backquote))
      match after with
      | nl :: rest₂ =>
        if nl = '\n' then
          match findFenceClose rest₂ with
          | some (body, r) => some (info, body, r)
          | none => none
        else none
      | [] => none
    else none
  | _ => none

/-- The next `CODE_FENCE_RE` match in the input, as `finditer` yields
it: (text before the match, info, body, remainder after the match). -/
def scanFence : List Char → Option (List Char × List Char × List Char × List Char)
  | [] => none
  | c :: rest =>
    match tryFenceAt (c :: rest) with
    | some (info, body, r) => some ([], info, body, r)
    | none =>
      match scanFence rest with
      | some (bef, info, body, r) => some (c :: bef, info, body, r)
      | none => none

/-- The match loop of `_split_chat_and_code_blocks`: one iteration per
`CODE_FENCE_RE` match (chat block from the text before it if nonblank,
code block from the fence body if nonblank), then the tail after the
last match.  `fuel` bounds the recursion; every match consumes
characters, so the text length suffices. -/
def splitChatCodeGo (chatKind chatLabel eventType timestamp itemType role itemId : String) :
    Nat → List Char → List SessionBlock
  | 0, _ => []
  | fuel + 1, cs =>
    match scanFence cs with
    | some (bef, info, body, rest) =>
      let beforeText := normalize_fragment ⟨bef⟩
      let beforeBlocks : List SessionBlock :=
        if beforeText = "" then [] else
          [{ kind := chatKind, label := chatLabel, body := truncate beforeText
             event_type := eventType, timestamp := timestamp, item_type := itemType
             role := role, item_id := itemId }]
      let language := pyStrip ⟨info⟩
      let codeBody := normalize_fragment ⟨body⟩
      let codeBlocks : List SessionBlock :=
        if codeBody = "" then [] else
          [{ kind := "code"
             label := if language = "" then "Code" else "Code · " ++ language
             body := truncate codeBody, event_type := eventType, timestamp := timestamp
             item_type := "code", role := role, item_id := itemId }]
      beforeBlocks ++ codeBlocks ++
        splitChatCodeGo chatKind chatLabel eventType timestamp itemType role itemId fuel rest
    | none =>
      let tailText := normalize_fragment ⟨cs⟩
      if tailText = "" then [] else
        [{ kind := chatKind, label := chatLabel, body := truncate tailText
           event_type := eventType, timestamp := timestamp, item_type := itemType
           role := role, item_id := itemId }]

/-- `_split_chat_and_code_blocks` (parameter order as in the
source). -/
def split_chat_and_code_blocks (text chatKind chatLabel eventType timestamp : String)
    (itemType : String := "") (role : String := "") (itemId : String := "") :
    List SessionBlock :=
  let blocks := splitChatCodeGo chatKind chatLabel eventType timestamp itemType role itemId
    text.data.length text.data
  if blocks.isEmpty then
    let body := normalize_fragment text
    if body = "" then [] else
      [{ kind := chatKind, label := chatLabel, body := truncate body
         event_type := eventType, timestamp := timestamp, item_type := itemType
         role := role, item_id := itemId }]
  else blocks

/-- Two-star head test for `_strip_wrapped_bold`. -/
def startsWith2Star (cs : List Char) : Bool :=
  match cs with
  | a :: b :: _ => a = '*' && b = '*'
  | _ => false

/-- The unwrap loop of `_strip_wrapped_bold`; `fuel` bounds the
recursion (each pass shortens the string by at least four). -/
def stripWrappedBoldGo : Nat → String → String
  | 0, s => s
  | fuel + 1, s =>
    if startsWith2Star s.data && startsWith2Star s.data.reverse && 4 < s.data.length then
      let inner := pyStrip ⟨(s.data.drop 2).take (s.data.length - 4)⟩
      if inner = "" then s else stripWrappedBoldGo fuel inner
    else s

/-- `_strip_wrapped_bold`. -/
def strip_wrapped_bold (text : String) : String :=
  let cleaned := normalize_fragment text
  stripWrappedBoldGo cleaned.data.length cleaned

/-- `_append_unique`: drop the block when it repeats the previous one
in kind, body, event type, item type, role, item id and item status
(label and timestamp are not compared). -/
def append_unique (blocks : List SessionBlock) (block : SessionBlock) : List SessionBlock :=
  match blocks.getLast? with
  | some last =>
    if block.kind = last.kind ∧ block.body = last.body ∧
        block.event_type = last.event_type ∧ block.item_type = last.item_type ∧
        block.role = last.role ∧ block.item_id = last.item_id ∧
        block.item_status = last.item_status then blocks
    else blocks ++ [block]
  | none => blocks ++ [block]

/-- `_flush_delta_buffers`: emit buffered text deltas as chat/code
blocks and buffered reasoning deltas as think blocks, in buffer
insertion order; returns the grown block list and the two emptied
buffers. -/
def flush_delta_buffers (blocks : List SessionBlock)
    (textBufs thinkBufs : List (String × String)) (timestamp : String) :
    List SessionBlock × (List (String × String) × List (String × String)) :=
  let blocks₁ := textBufs.foldl (fun bs p =>
    let flushed := normalize_fragment p.2
    if flushed = "" then bs
    else
      let normalizedId := if p.1 = "__default__" then "" else p.1
      (split_chat_and_code_blocks flushed "chat_codex" "Codex"
        "response.output_text.delta" timestamp "output_text" "assistant"
        normalizedId).foldl append_unique bs) blocks
  let blocks₂ := thinkBufs.foldl (fun bs p =>
    let flushed := normalize_fragment p.2
    if flushed = "" then bs
    else
      let normalizedId := if p.1 = "__default__" then "" else p.1
      append_unique bs
        { kind := "think", label := "Think", body := strip_wrapped_bold flushed
          event_type := "response.reasoning.delta", timestamp := timestamp
          item_type := "reasoning", role := "assistant", item_id := normalizedId }) blocks₁
  (blocks₂, ([], []))

/-- The body of the `for event in events` loop of
`_render_from_json_events`.  State: (blocks, text buffers, think
buffers); a string delta of an assistant/output-text type accumulates
in the text buffer of its stream, one of a reasoning-family type in
the think buffer; any other event first flushes both buffers, then
appends its own blocks (through the parameter `eventToBlocks`, the
embedding of `_event_to_blocks`). -/
def renderStep (eventToBlocks : PyVal → List SessionBlock)
    (st : List SessionBlock × List (String × String) × List (String × String))
    (event : PyVal) :
    List SessionBlock × List (String × String) × List (String × String) :=
  let eventType := event_type_of event
  let streamId := pyOr (stream_id_from_event event) "__default__"
  let emit : List SessionBlock × List (String × String) × List (String × String) :=
    let fl := flush_delta_buffers st.1 st.2.1 st.2.2 (event_timestamp event)
    ((eventToBlocks event).foldl append_unique fl.1, fl.2.1, fl.2.2)
  match dictGet event "delta" with
  | some (.pstr d) =>
    if isSubstring "assistant" eventType || isSubstring "output_text" eventType then
      (st.1, assocSet st.2.1 streamId ((assocGet st.2.1 streamId).getD "" ++ d), st.2.2)
    else if isSubstring "reasoning" eventType || isSubstring "thinking" eventType ||
        isSubstring "thought" eventType || isSubstring "analysis" eventType then
      (st.1, st.2.1, assocSet st.2.2 streamId ((assocGet st.2.2 streamId).getD "" ++ d))
    else emit
  | _ => emit

/-- The event loop and final flush of `_render_from_json_events`. -/
def renderCore (eventToBlocks : PyVal → List SessionBlock) (events : List PyVal) :
    List SessionBlock :=
  let st := events.foldl (renderStep eventToBlocks) ([], [], [])
  (flush_delta_buffers st.1 st.2.1 st.2.2 "").1

/-- `_render_from_json_events`: run the loop and keep the last
`max_blocks` blocks (empty output stays empty). -/
def render_from_json_events (eventToBlocks : PyVal → List SessionBlock)
    (events : List PyVal) (maxBlocks : Int) : List SessionBlock :=
  let fl := renderCore eventToBlocks events
  if fl.isEmpty then [] else pySliceFrom (-maxBlocks) fl

/-- The conversational kinds `_normalize_cli_view_blocks` keeps. -/
def allowedCliKind (k : String) : Bool :=
  k = "chat_agent" || k = "chat_codex" || k = "think" || k = "code" ||
    k = "tool_call" || k = "tool_result" || k = "error" || k = "terminal"

/-- The command-execution item types merged across updates. -/
def isCommandItemType (t : String) : Bool :=
  t = "command_execution" || t = "command" || t = "shell_command"

/-- The kinds whose adjacent blocks are concatenated. -/
def mergeAdjacentKind (k : String) : Bool :=
  k = "chat_agent" || k = "chat_codex" || k = "think" || k = "terminal"

/-- The in-place update a later command-execution block applies to the
matching earlier one. -/
def updateCommandBlock (body : String) (block existing : SessionBlock) : SessionBlock :=
  let e₁ := if body ≠ "" ∧ body ≠ "(command unavailable)" then
      { existing with body := truncate body } else existing
  let e₂ := if block.item_status ≠ "" then { e₁ with item_status := block.item_status } else e₁
  let e₃ := if block.label ≠ "" then { e₂ with label := block.label } else e₂
  if block.timestamp ≠ "" then { e₃ with timestamp := block.timestamp } else e₃

/-- Scan for the most recent command-execution block with this item
id (`for existing in reversed(merged)`); the merged list is kept most
recent first here, so this is a head-first scan.  `none` when no block
matches. -/
def updateLastCommand (body : String) (block : SessionBlock) :
    List SessionBlock → Option (List SessionBlock)
  | [] => none
  | x :: xs =>
    if x.kind = "tool_call" ∧ isCommandItemType x.item_type ∧ x.item_id = block.item_id then
      some (updateCommandBlock body block x :: xs)
    else
      match updateLastCommand body block xs with
      | some xs' => some (x :: xs')
      | none => none

/-- The fresh copy `_normalize_cli_view_blocks` appends (event type
cleared). -/
def mkCliBlock (body : String) (block : SessionBlock) : SessionBlock :=
  { kind := block.kind, label := block.label, body := truncate body, event_type := ""
    timestamp := block.timestamp, item_type := block.item_type, role := block.role
    item_id := block.item_id, item_status := block.item_status }

/-- One iteration of the merge loop of `_normalize_cli_view_blocks`;
the accumulator holds the merged list most recent first. -/
def normalizeCliStep (revMerged : List SessionBlock) (block : SessionBlock) :
    List SessionBlock :=
  if !allowedCliKind block.kind then revMerged
  else
    let body := normalize_fragment block.body
    if body = "" then revMerged
    else
      let cmdUpdated :=
        if block.kind = "tool_call" ∧ isCommandItemType block.item_type ∧
            block.item_id ≠ "" then
          updateLastCommand body block revMerged
        else none
      match cmdUpdated with
      | some rm => rm
      | none =>
        match revMerged with
        | last :: rest =>
          if last.kind = block.kind ∧ last.label = block.label ∧
              last.item_type = block.item_type ∧ last.role = block.role ∧
              (last.item_id = block.item_id ∨ (last.item_id = "" ∧ block.item_id = "")) ∧
              mergeAdjacentKind block.kind then
            { last with
                body := truncate (last.body ++ "\n\n" ++ body)
                timestamp := if last.timestamp = "" ∧ block.timestamp ≠ "" then
                    block.timestamp
                  else last.timestamp } :: rest
          else mkCliBlock body block :: last :: rest
        | [] => [mkCliBlock body block]

/-- `_normalize_cli_view_blocks`: filter to conversational kinds,
merge command updates and adjacent same-kind runs, synthesize one
terminal block when everything was filtered out, and keep the last
`max_blocks` merged blocks. -/
def normalize_cli_view_blocks (blocks : List SessionBlock) (maxBlocks : Int) :
    List SessionBlock :=
  match blocks with
  | [] => []
  | _ :: _ =>
    let mergedRev := blocks.foldl normalizeCliStep []
    match mergedRev with
    | [] =>
      match blocks.getLast? with
      | some tail =>
        [{ kind := "terminal", label := "Terminal"
           body := truncate (pyOr (normalize_fragment tail.body) "(No output yet)")
           event_type := "", timestamp := tail.timestamp
           item_type := pyOr tail.item_type "terminal", role := tail.role
           item_id := tail.item_id, item_status := tail.item_status }]
      | none => []
    | _ :: _ => pySliceFrom (-maxBlocks) mergedRev.reverse

/-- `_render_transcript`: strip ANSI, keep the last `max_lines` lines
when the limit is positive, drop trailing blanks per line, collapse
runs of more than two blank lines, and fall back to a placeholder. -/
def render_transcript (text : String) (maxLines : Int) : String :=
  let cleaned := strip_ansi text
  let allLines := pySplitlines cleaned
  let lines := if 0 < maxLines then pySliceFrom (-maxLines) allLines else allLines
  let compact := (lines.foldl (fun (st : List String × Nat) line =>
    if pyStrip line ≠ "" then (st.1 ++ [pyRStrip line], 0)
    else
      let blankSeen := st.2 + 1
      (if blankSeen ≤ 2 then st.1 ++ [""] else st.1, blankSeen)) ([], 0)).1
  let body := pyStrip (joinNL compact)
  pyOr body "(No output yet)"

/-- `parse_session_structured`: pick the log tail when it has content,
try the JSONL path (events parsed, rendered with a widened limit, then
normalized to at most `max_blocks` blocks), otherwise render the raw
transcript and split it into terminal/code blocks — without any
`max_blocks` truncation on that fallback path. -/
def parse_session_structured (jsonLoads : String → Option PyVal)
    (eventToBlocks : PyVal → List SessionBlock)
    (rawCapture logTail : String) (maxBlocks maxLines : Int) : SessionView :=
  let sourceText := if pyStrip logTail ≠ "" then logTail else rawCapture
  let events := iter_json_objects jsonLoads sourceText
  let structured : Option SessionView :=
    if events.isEmpty then none
    else
      let rawBlocks := render_from_json_events eventToBlocks events (max 64 (maxBlocks * 4))
      if rawBlocks.isEmpty then none
      else some { source := "jsonl", parsed_events := events.length
                  blocks := normalize_cli_view_blocks rawBlocks maxBlocks }
  match structured with
  | some v => v
  | none =>
    let fallback := if pyStrip sourceText ≠ "" then sourceText else rawCapture
    let fallbackBody := render_transcript fallback maxLines
    let fb := split_chat_and_code_blocks fallbackBody "terminal" "Terminal" "capture" ""
    let fallbackBlocks := if fb.isEmpty then
        [{ kind := "terminal", label := "Terminal", body := "(No output yet)"
           event_type := "capture", item_type := "terminal", item_id := ""
           item_status := "" }]
      else fb
    { source := "transcript", parsed_events := 0, blocks := fallbackBlocks }

theorem pySliceFrom_neg_length_le {α : Type} (n : Int) (l : List α) (hn : 0 < n) :
    (((pySliceFrom (-n) l).length : Int)) ≤ n := by
  unfold pySliceFrom
  rw [if_pos (by omega : (-n : Int) < 0), List.length_drop]
  omega

theorem pySliceFrom_neg_all {α : Type} (n : Int) (l : List α)
    (h : (l.length : Int) ≤ n) : pySliceFrom (-n) l = l := by
  unfold pySliceFrom
  by_cases hn : (-n : Int) < 0
  · rw [if_pos hn]
    have : (((l.length : Int) + -n).toNat) = 0 := by omega
    rw [this, List.drop_zero]
  · rw [if_neg hn]
    have hl : l.length = 0 := by omega
    have : l = [] := List.length_eq_zero.mp hl
    simp [this]

theorem normalize_cli_view_blocks_length_le (blocks : List SessionBlock) (m : Int)
    (hm : 0 < m) : (((normalize_cli_view_blocks blocks m).length : Int)) ≤ m := by
  match blocks with
  | [] => simpa [normalize_cli_view_blocks] using le_of_lt hm
  | b :: rest =>
    rw [normalize_cli_view_blocks]
    cases hmr : (b :: rest).foldl normalizeCliStep [] with
    | nil =>
      cases hl : (b :: rest).getLast? with
      | none =>
        rw [List.getLast?_eq_none_iff] at hl
        exact absurd hl (by simp)
      | some tail => simp; omega
    | cons x xs => exact pySliceFrom_neg_length_le m _ hm

/-- C8.  On the structured (JSONL) path — whenever
`parse_session_structured` reports source "jsonl" — the returned block
sequence has length at most `max_blocks`, for every capture, log tail,
positive `max_blocks`, parse oracle and event renderer.  (The
raw-transcript fallback path carries no such bound; see the
counterexample.) -/
theorem parse_session_structured_jsonl_bound (jsonLoads : String → Option PyVal)
    (eventToBlocks : PyVal → List SessionBlock) (rawCapture logTail : String)
    (maxBlocks maxLines : Int) (hm : 0 < maxBlocks)
    (hsrc : (parse_session_structured jsonLoads eventToBlocks rawCapture logTail
      maxBlocks maxLines).source = "jsonl") :
    (((parse_session_structured jsonLoads eventToBlocks rawCapture logTail
      maxBlocks maxLines).blocks.length : Int)) ≤ maxBlocks := by
  by_cases hev : (iter_json_objects jsonLoads
      (if pyStrip logTail ≠ "" then logTail else rawCapture)).isEmpty
  · simp only [parse_session_structured, hev, if_true] at hsrc
    exact absurd hsrc (by decide)
  · rw [Bool.not_eq_true] at hev
    by_cases hrb : (render_from_json_events eventToBlocks
        (iter_json_objects jsonLoads
          (if pyStrip logTail ≠ "" then logTail else rawCapture))
        (max 64 (maxBlocks * 4))).isEmpty
    · simp only [parse_session_structured, hev, hrb, Bool.false_eq_true, if_false,
        if_true] at hsrc
      exact absurd hsrc (by decide)
    · rw [Bool.not_eq_true] at hrb
      simp only [parse_session_structured, hev, hrb, Bool.false_eq_true, if_false]
      exact normalize_cli_view_blocks_length_le _ _ hm

/-- A capture whose transcript splits into a chat/code/chat triple. -/
def fencedCapture : String := "a\n```\nb\n```\nc"

/-- C8 counterexample: on the raw-transcript fallback path the block
sequence is NOT truncated to `max_blocks`: with `max_blocks = 1` the
fenced capture yields three blocks (terminal "a", code "b", terminal
"c"). -/
theorem parse_session_structured_counterexample :
    (parse_session_structured (fun _ => none) (fun _ => []) fencedCapture "" 1 260).source =
      "transcript" ∧
    (parse_session_structured (fun _ => none) (fun _ => []) fencedCapture "" 1
      260).blocks.length = 3 ∧
    ¬ ((((parse_session_structured (fun _ => none) (fun _ => []) fencedCapture "" 1
      260).blocks.length : Int)) ≤ 1) := by decide

/-- A one-line JSON log (as the witness oracle reads it). -/
def jlineRaw : String := "\x7b\x7d"

/-- The event the witness oracle parses `jlineRaw` to. -/
def eventW : PyVal := .pdict [("type", .pstr "message")]

/-- Witness parse oracle. -/
def jsonLoadsW : String → Option PyVal :=
  fun s => if s = jlineRaw then some eventW else none

/-- Witness event renderer. -/
def eventToBlocksW : PyVal → List SessionBlock :=
  fun _ => [{ kind := "terminal", label := "Terminal", body := "hi" }]

theorem parse_session_structured_jsonl_bound_witness :
    (0 : Int) < 1 ∧
    (parse_session_structured jsonLoadsW eventToBlocksW jlineRaw "" 1 260).source =
      "jsonl" ∧
    (((parse_session_structured jsonLoadsW eventToBlocksW jlineRaw "" 1
      260).blocks.length : Int)) ≤ 1 :=
  ⟨by decide, by decide,
    parse_session_structured_jsonl_bound jsonLoadsW eventToBlocksW jlineRaw "" 1 260
      (by decide) (by decide)⟩

/-- The two JSONL lines of the C9 scenario. -/
def deltaLine1 : String :=
  "\x7b\"type\":\"response.output_text.delta\",\"delta\":\"Hello\"\x7d"

def deltaLine2 : String :=
  "\x7b\"type\":\"response.output_text.delta\",\"delta\":\" world\"\x7d"

/-- The event log: only the two delta fragments, sharing one stream
(no item id, so both land on the `__default__` stream). -/
def deltaLog : String := deltaLine1 ++ "\n" ++ deltaLine2

/-- `json.loads` of the two lines. -/
def deltaEvent1 : PyVal :=
  .pdict [("type", .pstr "response.output_text.delta"), ("delta", .pstr "Hello")]

def deltaEvent2 : PyVal :=
  .pdict [("type", .pstr "response.output_text.delta"), ("delta", .pstr " world")]

/-- The parse oracle of the scenario: exactly the two log lines
parse, to their JSON values. -/
def deltaOracle : String → Option PyVal :=
  fun s =>
    if s = deltaLine1 then some deltaEvent1
    else if s = deltaLine2 then some deltaEvent2
    else none

/-- The single raw block the buffered fragments flush to. -/
def rawHelloBlock : SessionBlock :=
  { kind := "chat_codex", label := "Codex", body := "Hello world"
    event_type := "response.output_text.delta", timestamp := ""
    item_type := "output_text", role := "assistant", item_id := "", item_status := "" }

/-- The normalized CLI view of that block (event type cleared). -/
def helloBlock : SessionBlock :=
  { kind := "chat_codex", label := "Codex", body := "Hello world"
    event_type := "", timestamp := "", item_type := "output_text"
    role := "assistant", item_id := "", item_status := "" }

/-- An event that only feeds a delta buffer: a string `delta` field
and an event type of the assistant/output-text or reasoning family.
On such an event the loop body never consults `_event_to_blocks`. -/
def bufferOnlyEvent (event : PyVal) : Bool :=
  (match dictGet event "delta" with
    | some (.pstr _) => true
    | _ => false) &&
  (isSubstring "assistant" (event_type_of event) ||
    isSubstring "output_text" (event_type_of event) ||
    isSubstring "reasoning" (event_type_of event) ||
    isSubstring "thinking" (event_type_of event) ||
    isSubstring "thought" (event_type_of event) ||
    isSubstring "analysis" (event_type_of event))

theorem renderStep_bufferOnly (f g : PyVal → List SessionBlock)
    (st : List SessionBlock × List (String × String) × List (String × String))
    (event : PyVal) (h : bufferOnlyEvent event = true) :
    renderStep f st event = renderStep g st event := by
  unfold bufferOnlyEvent at h
  rw [Bool.and_eq_true] at h
  obtain ⟨hd, ht⟩ := h
  unfold renderStep
  cases hget : dictGet event "delta" with
  | none => rw [hget] at hd; simp at hd
  | some v =>
    cases v with
    | pstr d =>
      by_cases h1 : (isSubstring "assistant" (event_type_of event) ||
          isSubstring "output_text" (event_type_of event)) = true
      · simp only [h1, if_true]
      · rw [Bool.not_eq_true] at h1
        by_cases h2 : (isSubstring "reasoning" (event_type_of event) ||
            isSubstring "thinking" (event_type_of event) ||
            isSubstring "thought" (event_type_of event) ||
            isSubstring "analysis" (event_type_of event)) = true
        · simp only [h1, h2, Bool.false_eq_true, if_false, if_true]
        · rw [Bool.not_eq_true] at h2
          exfalso
          simp only [Bool.or_eq_true] at ht
          simp only [Bool.or_eq_false_iff] at h1 h2
          simp_all
    | pint n => rw [hget] at hd; simp at hd
    | pbool b => rw [hget] at hd; simp at hd
    | pnone => rw [hget] at hd; simp at hd
    | plist xs => rw [hget] at hd; simp at hd
    | pdict xs => rw [hget] at hd; simp at hd

theorem foldl_renderStep_indep (f g : PyVal → List SessionBlock) :
    ∀ (events : List PyVal)
      (st : List SessionBlock × List (String × String) × List (String × String)),
      events.all bufferOnlyEvent = true →
      events.foldl (renderStep f) st = events.foldl (renderStep g) st := by
  intro events
  induction events with
  | nil => intro st _; rfl
  | cons e rest ih =>
    intro st hall
    rw [List.all_cons, Bool.and_eq_true] at hall
    rw [List.foldl_cons, List.foldl_cons, renderStep_bufferOnly f g st e hall.1]
    exact ih _ hall.2

theorem renderCore_indep (f g : PyVal → List SessionBlock) (events : List PyVal)
    (hall : events.all bufferOnlyEvent = true) :
    renderCore f events = renderCore g events := by
  unfold renderCore
  rw [foldl_renderStep_indep f g events ([], [], []) hall]

/-- C9.  The two `response.output_text.delta` fragments "Hello" and
" world" are buffered per stream rather than emitted separately: for
every event renderer, line limit and positive block limit, the parse
returns exactly one block, of kind chat_codex, whose body contains
"Hello world". -/
theorem parse_session_delta_buffering (eventToBlocks : PyVal → List SessionBlock)
    (m lines : Int) (hm : 0 < m) :
    parse_session_structured deltaOracle eventToBlocks deltaLog "" m lines =
      { source := "jsonl", parsed_events := 2, blocks := [helloBlock] } ∧
    helloBlock.kind = "chat_codex" ∧
    isSubstring "Hello world" helloBlock.body = true := by
  have h64 : ((([rawHelloBlock] : List SessionBlock).length : Int)) ≤ max 64 (m * 4) :=
    le_trans (by norm_num) (le_max_left 64 (m * 4))
  have hm1 : ((([helloBlock] : List SessionBlock).length : Int)) ≤ m := by simp; omega
  have hcore : renderCore eventToBlocks [deltaEvent1, deltaEvent2] = [rawHelloBlock] := by
    rw [renderCore_indep eventToBlocks (fun _ => []) [deltaEvent1, deltaEvent2]
      (by decide)]
    decide
  have hrender : render_from_json_events eventToBlocks [deltaEvent1, deltaEvent2]
      (max 64 (m * 4)) = [rawHelloBlock] := by
    simp only [render_from_json_events]
    rw [hcore]
    rw [show (([rawHelloBlock] : List SessionBlock).isEmpty) = false from rfl]
    simp only [Bool.false_eq_true, if_false]
    exact pySliceFrom_neg_all _ _ h64
  have hmerged : ([rawHelloBlock] : List SessionBlock).foldl normalizeCliStep [] =
      [helloBlock] := by decide
  have hnorm : normalize_cli_view_blocks [rawHelloBlock] m = [helloBlock] := by
    simp only [normalize_cli_view_blocks]
    rw [hmerged]
    exact pySliceFrom_neg_all _ _ hm1
  refine ⟨?_, by decide, by decide⟩
  simp only [parse_session_structured]
  rw [show (if pyStrip "" ≠ "" then "" else deltaLog) = deltaLog from by decide]
  rw [show iter_json_objects deltaOracle deltaLog = [deltaEvent1, deltaEvent2] from rfl]
  rw [hrender, hnorm]
  rfl

theorem parse_session_delta_buffering_witness :
    parse_session_structured deltaOracle (fun _ => []) deltaLog "" 12 260 =
      { source := "jsonl", parsed_events := 2, blocks := [helloBlock] } ∧
    helloBlock.kind = "chat_codex" ∧
    isSubstring "Hello world" helloBlock.body = true :=
  parse_session_delta_buffering (fun _ => []) 12 260 (by decide)
